import Mathlib

/-!
# Verification of the `cite_checker` citation pipeline

A shallow embedding, over `List Char`, of the legal-citation checker
(`newcitechecker.py`, `regex.py`, `citationfixer.py`) together with the
fragments of the Python standard library its behaviour depends on
(`re` pattern matching with ordered alternation, greedy and lazy
quantifiers, lookahead and capture groups; `difflib.SequenceMatcher`;
`str` methods).  Text is represented as `List Char`; machine floats of
`difflib` thresholds are modelled as exact rational comparisons.

The tables of `constants.py` are not part of the repository sources, so
they are modelled from the specification where needed; each such
definition carries a doc comment starting with `Modelled from the spec:`.
-/

set_option maxRecDepth 40000

/-- Text is a list of characters (Python `str`, ASCII fragment). -/
abbrev LC := List Char

/-- The ASCII apostrophe character, written via its code point. -/
def apos : Char := Char.ofNat 39

/-- Python `\s` whitespace class (ASCII part: space, tab, newline,
carriage return, vertical tab, form feed). -/
def wsC (c : Char) : Bool :=
  c = ' ' || c = '\t' || c = '\n' || c = '\r' || c = Char.ofNat 11 || c = Char.ofNat 12

/-- Python `\d` digit class (ASCII decimal digits). -/
def digitC (c : Char) : Bool := '0' ≤ c && c ≤ '9'

/-- ASCII letter test. -/
def letterC (c : Char) : Bool :=
  ('a' ≤ c && c ≤ 'z') || ('A' ≤ c && c ≤ 'Z')

/-- Python `\w` word-character class (ASCII part: letters, digits, underscore). -/
def wordC (c : Char) : Bool := letterC c || digitC c || c = '_'

/-- The regex `.` metacharacter: any character except a newline. -/
def dotC (c : Char) : Bool := c ≠ '\n'

/-- The character class `[A-Za-z\.']` used for reporter tokens. -/
def repTokC (c : Char) : Bool := letterC c || c = '.' || c = apos

/-- The character class `[A-Za-z ]` used in the locational-phrase rule. -/
def letterSpaceC (c : Char) : Bool := letterC c || c = ' '

/-- ASCII lower-casing of one character. -/
def lowC (c : Char) : Char :=
  if 'A' ≤ c && c ≤ 'Z' then Char.ofNat (c.toNat + 32) else c

/-- ASCII upper-casing of one character. -/
def upC (c : Char) : Char :=
  if 'a' ≤ c && c ≤ 'z' then Char.ofNat (c.toNat - 32) else c

/-- Python `str.lower` (ASCII fragment). -/
def pyLower (s : LC) : LC := s.map lowC

/-- Python truthiness of an optional string: `None` and `""` are falsy. -/
def pyTruthy : Option LC → Bool
  | none => false
  | some s => !s.isEmpty

/-- Python `a or b` on optional strings: returns `a` if truthy, else `b`. -/
def pyOr (a b : Option LC) : Option LC := if pyTruthy a then a else b

/-- Python substring containment test (`needle in haystack`). -/
def containsSub (haystack needle : LC) : Bool :=
  match haystack with
  | [] => needle.isEmpty
  | _ :: t => needle.isPrefixOf haystack || containsSub t needle

/-- Python `str.strip()` : drop leading and trailing whitespace. -/
def pyStrip (s : LC) : LC :=
  ((s.dropWhile wsC).reverse.dropWhile wsC).reverse

/-- Python `str.rstrip(",")` : drop trailing commas. -/
def pyRStripComma (s : LC) : LC :=
  (s.reverse.dropWhile (· = ',')).reverse

/-- Worker for `pySplitWS`: `acc` holds the current word reversed. -/
def pySplitWSGo (acc : LC) : LC → List LC
  | [] => if acc.isEmpty then [] else [acc.reverse]
  | c :: t =>
    if wsC c then
      if acc.isEmpty then pySplitWSGo [] t
      else acc.reverse :: pySplitWSGo [] t
    else pySplitWSGo (c :: acc) t

/-- Python `str.split()` with no argument: split on whitespace runs,
discarding empty fields. -/
def pySplitWS (s : LC) : List LC := pySplitWSGo [] s

/-- Worker for `pySplitLines` (splits on a line separator, Python
`str.splitlines` over `\n`, `\r`, `\r\n`). -/
def pySplitLinesGo (acc : LC) : LC → List LC
  | [] => if acc.isEmpty then [] else [acc.reverse]
  | '\n' :: t => acc.reverse :: pySplitLinesGo [] t
  | '\r' :: '\n' :: t => acc.reverse :: pySplitLinesGo [] t
  | '\r' :: t => acc.reverse :: pySplitLinesGo [] t
  | c :: t => pySplitLinesGo (c :: acc) t

/-- Python `str.splitlines()` restricted to the separators `\n`, `\r`,
`\r\n` (the exotic Unicode separators are outside the ASCII model). -/
def pySplitLines (s : LC) : List LC := pySplitLinesGo [] s

/-- Python `"\n".join` of a list of lines. -/
def joinNL : List LC → LC
  | [] => []
  | [l] => l
  | l :: ls => l ++ '\n' :: joinNL ls

/-- Python `str.split(sep, 1)[0]`: the text before the first occurrence
of the character `sep` (whole string when absent). -/
def beforeFirst (sep : Char) (s : LC) : LC := s.takeWhile (· ≠ sep)

/-- Python `str.split(sep, 1)[1]` when `sep` occurs: text after the
first occurrence. -/
def afterFirst (sep : Char) (s : LC) : Option LC :=
  match s with
  | [] => none
  | c :: t => if c = sep then some t else afterFirst sep t

/-- Index of the first occurrence of `c` (Python `str.find`, `none` for `-1`). -/
def pyFindCh (s : LC) (c : Char) : Option Nat :=
  s.findIdx? (· = c)

/-- Index of the last occurrence of `c` (Python `str.rfind`, `none` for `-1`). -/
def pyRFindCh (s : LC) (c : Char) : Option Nat :=
  match pyFindCh s.reverse c with
  | none => none
  | some i => some (s.length - 1 - i)

/-- Python `str.rsplit(" ", 1)`: split at the last space into at most
two fields. -/
def pyRSplitSpace1 (s : LC) : List LC :=
  match pyRFindCh s ' ' with
  | none => [s]
  | some i => [s.take i, s.drop (i + 1)]

/-- Fuel-driven worker for `pyReplace`; every step consumes at least
one character of `s`, so the fuel `s.length + 1` never runs out. -/
def pyReplaceF : Nat → LC → LC → LC → LC
  | 0, s, _, _ => s
  | _ + 1, [], old, new => if old.isEmpty then new else []
  | fuel + 1, c :: t, old, new =>
    if old.isEmpty then new ++ c :: pyReplaceF fuel t old new
    else if old.isPrefixOf (c :: t) then
      new ++ pyReplaceF fuel ((c :: t).drop old.length) old new
    else c :: pyReplaceF fuel t old new

/-- Python `str.replace(old, new)`: replace all non-overlapping
occurrences, scanning left to right.  For an empty `old`, Python
inserts `new` at every position boundary. -/
def pyReplace (s old new : LC) : LC := pyReplaceF (s.length + 1) s old new

/-- Python `str.isdigit` on the ASCII fragment: nonempty and all digits. -/
def pyIsDigit (s : LC) : Bool := !s.isEmpty && s.all digitC

/-- Python `str.startswith` (case-sensitive). -/
def pyStartsWith (s pre : LC) : Bool := pre.isPrefixOf s

/-- Python `str.title()` (ASCII fragment): uppercase the first letter of
every alphabetic run, lowercase the rest. -/
def pyTitleGo (prevAlpha : Bool) : LC → LC
  | [] => []
  | c :: t =>
    let c' := if letterC c then (if prevAlpha then lowC c else upC c) else c
    c' :: pyTitleGo (letterC c) t

/-- Python `str.title()` (ASCII fragment). -/
def pyTitle (s : LC) : LC := pyTitleGo false s

section Engine

/-!
## A backtracking regex engine

An executable embedding of the fragment of Python `re` used by the
repository: character classes, literals (case-sensitive and
case-insensitive), ordered alternation, concatenation, greedy and lazy
`*`/`+` over character classes, counted repetition, greedy option,
capture groups, lookahead `(?=...)`, and the `$` anchor.  The matcher
explores alternatives in exactly Python's backtracking order and
returns the first (highest-priority) match, together with the captured
groups and the unconsumed suffix.  The `^` anchor is realised by the
drivers, which attempt the pattern only at position 0 (or at each
successive start position for `search`/`sub`).
-/

/-- Regex abstract syntax.  `gend` is an internal marker closing a
capture group: it stores the suffix at which the group started. -/
inductive RE : Type where
  | cls (p : Char → Bool) : RE
  | lit (s : LC) : RE
  | litIC (s : LC) : RE
  | alt (a b : RE) : RE
  | seq (a b : RE) : RE
  | star (p : Char → Bool) (lazy : Bool) : RE
  | plus (p : Char → Bool) (lazy : Bool) : RE
  | reps (p : Char → Bool) (n : Nat) : RE
  | opt (a : RE) : RE
  | grp (i : Nat) (a : RE) : RE
  | ahead (a : RE) : RE
  | eostr : RE
  | gend (i : Nat) (saved : LC) : RE

/-- Size measure used for termination of the matcher. -/
def reSize : RE → Nat
  | .cls _ => 1
  | .lit s => s.length + 1
  | .litIC s => s.length + 1
  | .alt a b => reSize a + reSize b + 1
  | .seq a b => reSize a + reSize b + 1
  | .star _ _ => 1
  | .plus _ _ => 2
  | .reps _ n => n + 1
  | .opt a => reSize a + 1
  | .ahead a => reSize a + 1
  | .grp _ a => reSize a + 2
  | .eostr => 1
  | .gend _ _ => 1

/-- Size of a continuation list of regexes. -/
def klSize : List RE → Nat
  | [] => 0
  | r :: k => reSize r + klSize k

/-- Captured groups: group index paired with captured text. -/
abbrev Caps := List (Nat × LC)

/-- Fuel-driven worker for the backtracking matcher.  Every step of the
matcher strictly decreases `l.length + klSize k` (consuming steps never
increase `klSize`, non-consuming steps strictly decrease it), so the
fuel `l.length + klSize k + 1` supplied by `matchFirst` never runs out;
the `fuel = 0` branch is unreachable.  Structural recursion on the fuel
keeps the function kernel-reducible. -/
def matchFuel : (fuel : Nat) → (k : List RE) → (l : LC) → (caps : Caps) → Option (Caps × LC)
  | 0, _, _, _ => none
  | _ + 1, [], l, caps => some (caps, l)
  | fuel + 1, .cls p :: k, l, caps =>
    match l with
    | [] => none
    | c :: t => if p c then matchFuel fuel k t caps else none
  | fuel + 1, .lit s :: k, l, caps =>
    match s with
    | [] => matchFuel fuel k l caps
    | c :: s' =>
      match l with
      | [] => none
      | d :: t => if d = c then matchFuel fuel (.lit s' :: k) t caps else none
  | fuel + 1, .litIC s :: k, l, caps =>
    match s with
    | [] => matchFuel fuel k l caps
    | c :: s' =>
      match l with
      | [] => none
      | d :: t => if lowC d = lowC c then matchFuel fuel (.litIC s' :: k) t caps else none
  | fuel + 1, .alt a b :: k, l, caps =>
    matchFuel fuel (a :: k) l caps <|> matchFuel fuel (b :: k) l caps
  | fuel + 1, .seq a b :: k, l, caps => matchFuel fuel (a :: b :: k) l caps
  | fuel + 1, .star p lz :: k, l, caps =>
    if lz then
      matchFuel fuel k l caps <|>
        (match l with
         | [] => none
         | c :: t => if p c then matchFuel fuel (.star p lz :: k) t caps else none)
    else
      (match l with
       | [] => none
       | c :: t =>
         if p c then matchFuel fuel (.star p lz :: k) t caps else none) <|>
        matchFuel fuel k l caps
  | fuel + 1, .plus p lz :: k, l, caps =>
    match l with
    | [] => none
    | c :: t => if p c then matchFuel fuel (.star p lz :: k) t caps else none
  | fuel + 1, .reps p n :: k, l, caps =>
    match n with
    | 0 => matchFuel fuel k l caps
    | n + 1 =>
      match l with
      | [] => none
      | c :: t => if p c then matchFuel fuel (.reps p n :: k) t caps else none
  | fuel + 1, .opt a :: k, l, caps =>
    matchFuel fuel (a :: k) l caps <|> matchFuel fuel k l caps
  | fuel + 1, .grp i a :: k, l, caps => matchFuel fuel (a :: .gend i l :: k) l caps
  | fuel + 1, .ahead a :: k, l, caps =>
    match matchFuel fuel [a] l caps with
    | some _ => matchFuel fuel k l caps
    | none => none
  | fuel + 1, .eostr :: k, l, caps =>
    if l = [] || l = ['\n'] then matchFuel fuel k l caps else none
  | fuel + 1, .gend i saved :: k, l, caps =>
    matchFuel fuel k l ((i, saved.take (saved.length - l.length)) :: caps)

/-- The backtracking matcher.  `matchFirst k l caps` matches the
sequence of regexes `k` against `l`, returning the captures and the
unconsumed suffix of the first successful alternative in Python's
backtracking order. -/
def matchFirst (k : List RE) (l : LC) (caps : Caps) : Option (Caps × LC) :=
  matchFuel (l.length + klSize k + 1) k l caps

end Engine

/-- Concatenation of a list of regexes. -/
def catAll (l : List RE) : RE := l.foldr RE.seq (RE.lit [])

/-- Ordered alternation of a list of regexes (first alternative wins). -/
def altList (l : List RE) : RE :=
  match l with
  | [] => RE.lit []
  | [r] => r
  | r :: rs => RE.alt r (altList rs)

/-- Shorthand turning a string literal into its character list. -/
def str (s : String) : LC := s.data

/-- `re.search`: does the pattern match starting at some position? -/
def reSearchB (pat : RE) : LC → Bool
  | [] => (matchFirst [pat] [] []).isSome
  | s@(_ :: t) => (matchFirst [pat] s []).isSome || reSearchB pat t

/-- Value captured by group `i` (Python `m.group(i)`; the matcher
prepends newer captures, and each group is captured at most once in the
patterns used here). -/
def groupV (caps : Caps) (i : Nat) : Option LC := caps.lookup i

section Tables

/-!
## Tables from `constants.py`

`constants.py` is imported by the sources but is not part of the
repository files, so its tables are modelled from the specification.
-/

/-- Modelled from the spec: `ALLOWED_REPORTERS` of the missing
`constants.py`.  The spec's worked examples use the reporters `U.S.`
and `F.2d` (§8: Brown v. Board validates; F.2d is a
Court-of-Appeals reporter), so the allow-list is modelled as those two. -/
def ALLOWED_REPORTERS : List LC := [str "F.2d", str "U.S."]

/-- The reporter alternation of `regex.py`, `sorted(..., key=len,
reverse=True)`: both modelled reporters have length 4, so the stable
sort keeps the listed order. -/
def allowedReportersAlternation : List LC := ALLOWED_REPORTERS

/-- Modelled from the spec: `COURT_REPORTER_MAPPING` of the missing
`constants.py`: each federal court level named in §4.4 mapped to a
nonempty allowed-reporter set; §8 requires that the Supreme Court set
not contain `F.2d` (a Court-of-Appeals reporter). -/
def COURT_REPORTER_MAPPING : List (LC × List LC) := [
  (str "Supreme Court", [str "U.S.", str "S. Ct.", str "L. Ed."]),
  (str "Court of Federal Claims", [str "Fed. Cl."]),
  (str "Tax Court", [str "T.C."]),
  (str "Court of Appeals", [str "F.", str "F.2d", str "F.3d"]),
  (str "District Courts", [str "F. Supp.", str "F.R.D."]),
  (str "Military Service", [str "M.J."]),
  (str "Veterans" ++ apos :: str " Appeals", [str "Vet. App."])]

/-- Modelled from the spec: `STATE_COURT_REPORTER_MAPPING` of the
missing `constants.py` (state → allowed reporters, §4.4). -/
def STATE_COURT_REPORTER_MAPPING : List (LC × List LC) := [
  (str "California", [str "Cal. Rptr.", str "Cal. Rptr. 2d"]),
  (str "New York", [str "N.Y.", str "N.Y.S."])]

/-- Modelled from the spec: `VALID_CITATION_SIGNALS` of the missing
`constants.py` (§ Glossary gives `See` and `Cf.` as signals). -/
def VALID_CITATION_SIGNALS : List LC := [str "See", str "Cf."]

/-- Modelled from the spec: `CITATION_SIGNALS_ORDERED` of the missing
`constants.py` (signals in fixed priority order, §4.6). -/
def CITATION_SIGNALS_ORDERED : List LC := [str "See also", str "See", str "Cf."]

/-- Modelled from the spec: `MONTH_ABBREVIATIONS` of the missing
`constants.py` (full month name → §4-600 abbreviation). -/
def MONTH_ABBREVIATIONS : List (LC × LC) := [
  (str "January", str "Jan."),
  (str "February", str "Feb."),
  (str "October", str "Oct.")]

/-- Modelled from the spec: `JOURNAL_ABBREVIATIONS` of the missing
`constants.py` (journal full name, title-cased, → abbreviation). -/
def JOURNAL_ABBREVIATIONS : List (LC × LC) := [
  (str "Harvard Law Review", str "Harv. L. Rev.")]

end Tables

section Patterns

/-!
## `regex.py`: the case-citation grammar rule

`CITATION_PATTERN` of `regex.py`:

    ^(?P<case_name>.+),(?=\s*\d+\s)\s*(?P<volume>\d+)\s+
    (?P<reporter>({reporters}))\s+(?P<page>\d+)
    (?:,\s*(?P<pinpoint>\d+(?:-\d+)?))?\s*\((?P<court>.+?)\s+(?P<year>\d{4})\)$

Group numbering follows the Python pattern (group 4 is the unnamed
inner alternation and is not captured separately here). -/

/-- The optional pinpoint body `\d+(?:-\d+)?`. -/
def pinpointRE : RE :=
  .seq (.plus digitC false) (.opt (.seq (.lit ['-']) (.plus digitC false)))

/-- The full-form case-citation pattern (`^` is enforced by the
drivers; `$` is the final `eostr`). -/
def CITATION_PATTERN : RE := catAll [
  .grp 1 (.plus dotC false),
  .lit [','],
  .ahead (catAll [.star wsC false, .plus digitC false, .cls wsC]),
  .star wsC false,
  .grp 2 (.plus digitC false),
  .plus wsC false,
  .grp 3 (altList (allowedReportersAlternation.map RE.lit)),
  .plus wsC false,
  .grp 5 (.plus digitC false),
  .opt (catAll [.lit [','], .star wsC false, .grp 6 pinpointRE]),
  .star wsC false,
  .lit ['('],
  .grp 7 (.plus dotC true),
  .plus wsC false,
  .grp 8 (.reps digitC 4),
  .lit [')'],
  .eostr]

/-- The volume/reporter/page shape `\d+\s+[A-Za-z\.']+\s+\d+` searched
for by the structural validator. -/
def vrpRE : RE := catAll [
  .plus digitC false,
  .plus wsC false,
  .plus repTokC false,
  .plus wsC false,
  .plus digitC false]

/-- The repair regex of `citationfixer.py`:

    ^(?P<case>.+?)\s+(?P<vol>\d+)\s+(?P<rep>[A-Za-z\.\']+)\s+(?P<page>\d+)\s*
    (?P<court>.+?)?\s*(?P<year>\d{4})\.?$
-/
def FIX_PATTERN : RE := catAll [
  .grp 1 (.plus dotC true),
  .plus wsC false,
  .grp 2 (.plus digitC false),
  .plus wsC false,
  .grp 3 (.plus repTokC false),
  .plus wsC false,
  .grp 4 (.plus digitC false),
  .star wsC false,
  .opt (.grp 5 (.plus dotC true)),
  .star wsC false,
  .grp 6 (.reps digitC 4),
  .opt (.lit ['.']),
  .eostr]

/-- A parsed case citation: the named groups of `CITATION_PATTERN`
(`m.groupdict()`). -/
structure CaseComps where
  case_name : LC
  volume : LC
  reporter : LC
  page : LC
  pinpoint : Option LC
  court : LC
  year : LC
deriving DecidableEq, Repr

/-- Assemble a `CaseComps` from the matcher's captures. -/
def buildCaseComps (caps : Caps) : Option CaseComps := do
  let cn ← groupV caps 1
  let vol ← groupV caps 2
  let rep ← groupV caps 3
  let pg ← groupV caps 5
  let ct ← groupV caps 7
  let yr ← groupV caps 8
  pure ⟨cn, vol, rep, pg, groupV caps 6, ct, yr⟩

/-- `CITATION_PATTERN.match(s)` (Python `match` anchors at position 0;
the trailing `$` of the pattern anchors the end): the parsed components
and the match's end position. -/
def citationMatchEnd (s : LC) : Option (CaseComps × Nat) :=
  match matchFirst [CITATION_PATTERN] s [] with
  | none => none
  | some (caps, rest) =>
    match buildCaseComps caps with
    | none => none
    | some c => some (c, s.length - rest.length)

/-- `CITATION_PATTERN.match(s)`: just the parsed components. -/
def citationMatch (s : LC) : Option CaseComps :=
  (citationMatchEnd s).map (·.1)

end Patterns

section Subs

/-!
## Scanning substitution (`re.sub`) and the preprocessing rewrites
-/

/-- Fuel-driven generic scanning substitution (Python `re.sub`): at each
position, `att prev rest` reports a match as `(replacement, consumed)`
with `consumed ≥ 1`; on a match the replacement is emitted and scanning
resumes after the consumed text (replacements are not rescanned; the
scan is leftmost, non-overlapping).  `prev` is the original character
immediately before the current position, for word-boundary tests.
Every pattern used here consumes at least one character, so the fuel
supplied by `subScan` never runs out. -/
def subScanF : Nat → (Option Char → LC → Option (LC × Nat)) → Option Char → LC → LC
  | 0, _, _, s => s
  | _ + 1, _, _, [] => []
  | fuel + 1, att, prev, c :: t =>
    match att prev (c :: t) with
    | some (rep, n) =>
      let m := max n 1
      rep ++ subScanF fuel att ((c :: t).take m).getLast? ((c :: t).drop m)
    | none => c :: subScanF fuel att (some c) t

/-- Python `re.sub` driver. -/
def subScan (att : Option Char → LC → Option (LC × Nat)) (s : LC) : LC :=
  subScanF (s.length + 1) att none s

/-- `wordC` lifted to an optional character (`none` = outside the string). -/
def wordO : Option Char → Bool
  | none => false
  | some c => wordC c

/-- The regex `\b` word-boundary condition between adjacent (optional)
characters `x` and `y`. -/
def boundaryB (x y : Option Char) : Bool := wordO x != wordO y

/-- Case-insensitive prefix test (ASCII `re.IGNORECASE`). -/
def icPrefix (pre s : LC) : Bool := (pyLower pre).isPrefixOf (pyLower s)

/-- Does `rest` start with four digits followed by a closing parenthesis
(the `\d{4}\)` tail of the month lookahead)? -/
def fourDigitsParen : LC → Bool
  | d1 :: d2 :: d3 :: d4 :: ')' :: _ => digitC d1 && digitC d2 && digitC d3 && digitC d4
  | _ => false

/-- Satisfiability of the month lookahead `(?=[^)]*\b\d{4}\))` starting
after the month name; `prev` is the character just before the current
scan position (initially the month's last letter). -/
def monthLook (prev : Char) : LC → Bool
  | [] => false
  | c :: t =>
    (!wordC prev && fourDigitsParen (c :: t)) ||
      (c ≠ ')' && monthLook c (t))

/-- One attempted match of the month pattern
`\b(month1|month2|...)(?=[^)]*\b\d{4}\))` at the current position. -/
def monthSubAtt (prev : Option Char) (s : LC) : Option (LC × Nat) :=
  if boundaryB prev s.head? then
    MONTH_ABBREVIATIONS.findSome? fun pr =>
      if pr.1.isPrefixOf s && monthLook (pr.1.getLast?.getD ' ') (s.drop pr.1.length) then
        some (pr.2, pr.1.length)
      else none
  else none

/-- `abbreviate_months_in_citation`: replace full month names with
abbreviations, only inside a parenthetical ending in a 4-digit year. -/
def abbreviateMonthsInCitation (text : LC) : LC := subScan monthSubAtt text

/-- The character class `[A-Za-z\.]` of the journal lookahead. -/
def jrnTokC (c : Char) : Bool := letterC c || c = '.'

/-- Satisfiability of the journal lookahead
`(?=\s+\d+\s+[A-Za-z\.]+\s+\d+)` (all adjacent classes are disjoint, so
the greedy runs are deterministic). -/
def journalLook (rest : LC) : Bool :=
  let w1 := rest.takeWhile wsC
  let r1 := rest.drop w1.length
  let d1 := r1.takeWhile digitC
  let r2 := r1.drop d1.length
  let w2 := r2.takeWhile wsC
  let r3 := r2.drop w2.length
  let a1 := r3.takeWhile jrnTokC
  let r4 := r3.drop a1.length
  let w3 := r4.takeWhile wsC
  let r5 := r4.drop w3.length
  let d2 := r5.takeWhile digitC
  !w1.isEmpty && !d1.isEmpty && !w2.isEmpty && !a1.isEmpty && !w3.isEmpty && !d2.isEmpty

/-- One attempted match of the journal pattern (case-insensitive, keyed
back through `title()`-casing as in the source's replacement callback). -/
def journalSubAtt (prev : Option Char) (s : LC) : Option (LC × Nat) :=
  if boundaryB prev s.head? then
    JOURNAL_ABBREVIATIONS.findSome? fun pr =>
      if icPrefix pr.1 s && journalLook (s.drop pr.1.length) then
        let matched := s.take pr.1.length
        some ((JOURNAL_ABBREVIATIONS.lookup (pyTitle matched)).getD matched, pr.1.length)
      else none
  else none

/-- `abbreviate_journals_in_citation`. -/
def abbreviateJournalsInCitation (text : LC) : LC := subScan journalSubAtt text

end Subs

section Omit

/-!
## `omit_words_in_case_name` (§4-300 omissions)
-/

/-- Split at the first occurrence of the substring `sub` (nonempty). -/
def splitFirstSub (sub : LC) : LC → Option (LC × LC)
  | [] => none
  | c :: t =>
    if sub.isPrefixOf (c :: t) then some ([], (c :: t).drop sub.length)
    else (splitFirstSub sub t).map (fun p => (c :: p.1, p.2))

/-- Split at every occurrence of the substring `sub` (Python
`str.split(sub)` for nonempty `sub`), via fuel (each occurrence
consumes at least one character, so `s.length + 1` suffices). -/
def splitAllSubF : Nat → LC → LC → List LC
  | 0, _, s => [s]
  | fuel + 1, sub, s =>
    match splitFirstSub sub s with
    | none => [s]
    | some (a, b) => a :: splitAllSubF fuel sub b

/-- Python `str.split(sub)` for a nonempty separator substring. -/
def splitAllSub (sub s : LC) : List LC := splitAllSubF (s.length + 1) sub s

/-- Step 1: `re.sub(r'^(The)\s+', '', name, flags=re.IGNORECASE)` —
drop a leading "The" followed by whitespace (anchored, so at most one
replacement). -/
def omitStep1 (name : LC) : LC :=
  if pyLower (name.take 3) = str "the" then
    let rest := name.drop 3
    let w := rest.takeWhile wsC
    if w.isEmpty then name else rest.drop w.length
  else name

/-- Steps 2–4: keep only before the first comma and strip; re-split the
two sides of ` v. `; `In re` keeps only up to a comma. -/
def omitStep234 (name0 : LC) : LC :=
  let name1 := pyStrip (beforeFirst ',' name0)
  let name2 :=
    match splitFirstSub (str " v. ") name1 with
    | some (left, right') =>
      let right := beforeFirst ',' right'
      left ++ str " v. " ++ right
    | none => name1
  if pyStartsWith (pyLower name2) (str "in re") then beforeFirst ',' name2 else name2

/-- The descriptor alternation of step 6. -/
def trusteeWords : List LC :=
  [str "Trustee", str "Executor", str "Administrator", str "Administratrix"]

/-- Step 6 match attempt:
`\b(Trustee|Executor|Administrator|Administratrix)\b.*` (ignorecase);
`.*` extends to the end of the line. -/
def trusteeAtt (prev : Option Char) (s : LC) : Option (LC × Nat) :=
  if boundaryB prev s.head? then
    trusteeWords.findSome? fun w =>
      if icPrefix w s && boundaryB ((s.take w.length).getLast?) ((s.drop w.length).head?) then
        some ([], w.length + ((s.drop w.length).takeWhile dotC).length)
      else none
  else none

/-- Step 7 match attempt: `\bState of\s+` → `State ` (ignorecase). -/
def stateOfAtt (prev : Option Char) (s : LC) : Option (LC × Nat) :=
  if boundaryB prev s.head? && icPrefix (str "State of") s then
    let w := (s.drop 8).takeWhile wsC
    if w.isEmpty then none else some (str "State ", 8 + w.length)
  else none

/-- Step 8 match attempt: `(?<!^)\bCity of\s+` → deleted; the negative
lookbehind `(?<!^)` means the position is not the string start
(`prev ≠ none`). -/
def cityOfAtt (prev : Option Char) (s : LC) : Option (LC × Nat) :=
  match prev with
  | none => none
  | some c =>
    if !wordC c && icPrefix (str "City of") s then
      let w := (s.drop 7).takeWhile wsC
      if w.isEmpty then none else some ([], 7 + w.length)
    else none

/-- The locational alternation of step 9. -/
def locWords : List LC :=
  [str "of", str "County", str "Township", str "Village", str "District"]

/-- Step 9 match attempt:
`\b(of|County|Township|Village|District)\s+[A-Za-z ]+` → deleted
(ignorecase; note there is no `\b` after the alternation). -/
def locAtt (prev : Option Char) (s : LC) : Option (LC × Nat) :=
  if boundaryB prev s.head? then
    locWords.findSome? fun w =>
      if icPrefix w s then
        let ws1 := (s.drop w.length).takeWhile wsC
        let body := (s.drop (w.length + ws1.length)).takeWhile letterSpaceC
        if ws1.isEmpty || body.isEmpty then none
        else some ([], w.length + ws1.length + body.length)
      else none
  else none

/-- Step 10 match attempt: `United States of America` → `United States`
(ignorecase, no word boundaries in the pattern). -/
def usaAtt (_ : Option Char) (s : LC) : Option (LC × Nat) :=
  if icPrefix (str "United States of America") s then
    some (str "United States", 24)
  else none

/-- `ps[-1] if len(ps) > 1 else p` with `ps = p.split()`. -/
def lastWordOf (p : LC) : LC :=
  let ps := pySplitWS p
  if ps.length > 1 then ps.getLast?.getD p else p

/-- The corporate-marker search words of step 12 (`\b(Co|Corp|Ass'n)\b`,
case-sensitive). -/
def corpMarkers : List LC := [str "Co", str "Corp", str "Ass" ++ apos :: str "n"]

/-- Search for `\b(Co|Corp|Ass'n)\b` (case-sensitive). -/
def hasCorpMarkerFrom (prev : Option Char) : LC → Bool
  | [] => false
  | c :: t =>
    (boundaryB prev (some c) &&
      corpMarkers.any fun w =>
        w.isPrefixOf (c :: t) &&
          boundaryB (((c :: t).take w.length).getLast?) (((c :: t).drop w.length).head?)) ||
      hasCorpMarkerFrom (some c) t

/-- The entity suffixes dropped by step 12
(`\b(Inc|Ltd|N\.A\.|F\.S\.B\.),?\s*`, case-sensitive; no trailing `\b`). -/
def entitySuffixes : List LC := [str "Inc", str "Ltd", str "N.A.", str "F.S.B."]

/-- Step 12 substitution attempt. -/
def entityAtt (prev : Option Char) (s : LC) : Option (LC × Nat) :=
  if boundaryB prev s.head? then
    entitySuffixes.findSome? fun w =>
      if w.isPrefixOf s then
        let afterW := s.drop w.length
        let commaN := if afterW.head? = some ',' then 1 else 0
        let ws := (afterW.drop commaN).takeWhile wsC
        some ([], w.length + commaN + ws.length)
      else none
  else none

/-- `omit_words_in_case_name` (§4-300).  Returns `none` exactly where
the Python function raises (step 11 unpacking `name.split(' v. ')` into
two values when the count differs from two). -/
def omitWordsInCaseName (name : LC) : Option LC :=
  let n1 := omitStep1 name
  let n2 := omitStep234 n1
  let n3 := pyStrip (subScan trusteeAtt n2)
  let n4 := subScan stateOfAtt n3
  let n5 := subScan cityOfAtt n4
  let n6 := subScan locAtt n5
  let n7 := subScan usaAtt n6
  let n8? : Option LC :=
    if containsSub n7 (str " v. ") then
      match splitAllSub (str " v. ") n7 with
      | [a, b] => some (lastWordOf a ++ str " v. " ++ lastWordOf b)
      | _ => none
    else some (lastWordOf n7)
  match n8? with
  | none => none
  | some n8 =>
    let n9 :=
      if hasCorpMarkerFrom none n8 then subScan entityAtt n8 else n8
    some (pyStrip n9)

end Omit

section Semantic

/-!
## Court-level mapping and the semantic validator
-/

/-- `map_federal_court_level`: substring heuristics over the lowercased
court string, in the source's fixed priority order. -/
def mapFederalCourtLevel (court_str : LC) : Option LC :=
  if court_str.isEmpty then none
  else
    let cs := pyLower court_str
    if containsSub cs (str "supreme") then some (str "Supreme Court")
    else if containsSub cs (str "ct. cl.") then some (str "Court of Federal Claims")
    else if containsSub cs (str "t.c.") then some (str "Tax Court")
    else if containsSub cs (str "cir") then some (str "Court of Appeals")
    else if containsSub cs (str "f.r.d.") || containsSub cs (str "district") then
      some (str "District Courts")
    else if containsSub cs (str "m.j.") then some (str "Military Service")
    else if containsSub cs (str "vet. app.") then
      some (str "Veterans" ++ apos :: str " Appeals")
    else some (str "Unknown")

/-- `map_state_court_level`, as a function of the record's reporter
(the source reads `citation_components.get("reporter", "")`). -/
def mapStateCourtLevelR (rep : LC) : Option LC :=
  if pyStartsWith rep (str "Cal. App.") then some (str "California Appellate")
  else if pyStartsWith rep (str "Cal. Rptr.") then some (str "California")
  else if rep = str "N.Y.2d" || rep = str "N.Y.3d" then some (str "New York Appellate")
  else if rep = str "N.Y." || rep = str "N.Y.S." then some (str "New York")
  else STATE_COURT_REPORTER_MAPPING.findSome? fun p =>
    if p.2.contains rep then some p.1 else none

/-- Python `str(...)` of an optional string (an absent reporter prints
as `None` in the f-string error messages). -/
def showOptLC : Option LC → LC
  | none => str "None"
  | some s => s

/-- Python `repr` of a list of strings, used when an allowed-reporter
table value is interpolated into an error message. -/
def showListLC (l : List LC) : LC :=
  '[' :: joinComma (l.map fun s => apos :: s ++ [apos]) ++ [']']
where
  joinComma : List LC → LC
    | [] => []
    | [x] => x
    | x :: xs => x ++ str ", " ++ joinComma xs

/-- Membership of an optional reporter in an allowed list (Python
`reporter not in allowed` is true when `reporter` is `None`). -/
def optMem (r : Option LC) (allowed : List LC) : Bool :=
  match r with
  | none => false
  | some x => allowed.contains x

/-- `validate_reporter_for_court`, as a function of the court string
(`.get("court", "")`) and the optional reporter (`.get("reporter")`).
Returns `.error msg` where the source raises `ValueError(msg)`. -/
def validateReporterForCourtR (court : LC) (reporter : Option LC) : Except LC Unit :=
  let fedCheck : Except LC Unit :=
    let stCheck : Except LC Unit :=
      match mapStateCourtLevelR (reporter.getD []) with
      | some lvl =>
        match STATE_COURT_REPORTER_MAPPING.lookup lvl with
        | some allowed =>
          if !allowed.isEmpty && !optMem reporter allowed then
            .error (str "Reporter " ++ apos :: showOptLC reporter ++ apos :: str " not valid for "
              ++ lvl ++ str ". Allowed: " ++ showListLC allowed)
          else .ok ()
        | none => .ok ()
      | none => .ok ()
    match mapFederalCourtLevel court with
    | some lvl =>
      if lvl ≠ str "Unknown" then
        match COURT_REPORTER_MAPPING.lookup lvl with
        | some allowed =>
          if !allowed.isEmpty && !optMem reporter allowed then
            .error (str "Reporter " ++ apos :: showOptLC reporter ++ apos
              :: str " not valid for federal " ++ lvl ++ str ". Allowed: " ++ showListLC allowed)
          else .ok ()
        | none => .ok ()
      else stCheck
    | none => stCheck
  fedCheck

end Semantic

section Structural

/-!
## `CitationError` and `_collect_format_errors`
-/

/-- A structural-format violation (`CitationError` of the source:
message, character offsets, field tag).  Offsets are `Int` because the
source computes some of them from `str.find`, which returns `-1` on a
miss. -/
structure CitationError where
  message : LC
  start : Int
  stop : Int
  field : Option LC
deriving DecidableEq, Repr

/-- Python `str.find(c)` as an integer (`-1` when absent). -/
def pyFindInt (s : LC) (c : Char) : Int :=
  match pyFindCh s c with
  | none => -1
  | some i => (i : Int)

/-- Python `str.rfind(c)` as an integer (`-1` when absent). -/
def pyRFindInt (s : LC) (c : Char) : Int :=
  match pyRFindCh s c with
  | none => -1
  | some i => (i : Int)

/-- Check 1 of `_collect_format_errors`: the text must contain both
parentheses. -/
def checkParens (citation : LC) : List CitationError :=
  if !citation.contains '(' || !citation.contains ')' then
    [⟨str "Missing parentheses around court and year (…)", 0, (citation.length : Int),
      some (str "parentheses")⟩]
  else []

/-- Check 2: a comma must occur before the first `(`. -/
def checkComma (citation : LC) : List CitationError :=
  if !(beforeFirst '(' citation).contains ',' then
    [⟨str "Missing comma before the parenthetical containing court and year.", 0,
      ((beforeFirst '(' citation).length : Int), some (str "comma")⟩]
  else []

/-- Check 3: that prefix must contain a volume/reporter/page shape. -/
def checkVRP (citation : LC) : List CitationError :=
  if !reSearchB vrpRE (beforeFirst '(' citation) then
    [⟨str "Missing volume, reporter, or page (e.g., ‘123 U.S. 456’).", 0,
      ((beforeFirst '(' citation).length : Int), some (str "volume_reporter_page")⟩]
  else []

/-- Checks 4–6: the parenthetical interior must rsplit on its last
space into a court part and a 4-digit year, the court part nonempty. -/
def checkParenthetical (citation : LC) : List CitationError :=
  if citation.contains '(' && citation.contains ')' then
    let fi := (pyFindCh citation '(').getD 0
    let ri := (pyRFindCh citation ')').getD 0
    let inner := (citation.take ri).drop (fi + 1)
    match pyRSplitSpace1 inner with
    | [court_part, year_part] =>
      (if !(pyIsDigit year_part && year_part.length = 4) then
        [⟨str "Invalid year ‘" ++ year_part ++ str "’; expected four digits.",
          pyRFindInt citation ' ' + 1, pyRFindInt citation ')', some (str "year")⟩]
      else []) ++
      (if (pyStrip court_part).isEmpty then
        [⟨str "Missing court name before the year inside parentheses.",
          pyFindInt citation '(' + 1, pyFindInt citation ' ', some (str "court")⟩]
      else [])
    | _ =>
      [⟨str "Parenthetical must be of the form ‘(Court Year)’.",
        pyFindInt citation '(', pyRFindInt citation ')' + 1,
        some (str "parenthetical_contents")⟩]
  else []

/-- `_collect_format_errors`: accumulate all structural violations in
check order (the checks are the named `check*` definitions above), then
the final whole-grammar fallback. -/
def collectFormatErrors (citation : LC) : List CitationError :=
  let errors0 := checkParens citation
  let errors1 := errors0 ++ checkComma citation
  let errors2 := errors1 ++ checkVRP citation
  let errors3 := errors2 ++ checkParenthetical citation
  if errors3.isEmpty && (citationMatch citation).isNone then
    errors3 ++
      [⟨str "Citation structure invalid. Expected: CaseName Volume Reporter Page (Court Year).",
        0, (citation.length : Int), some (str "overall")⟩]
  else errors3

end Structural

section Quote

/-!
## `format_quote` (§6-100)
-/

/-- Python `char.islower()` (ASCII fragment). -/
def pyIsLowerCh (c : Char) : Bool := 'a' ≤ c && c ≤ 'z'

/-- Drop a maximal run of periods. -/
def dropDots : LC → LC
  | '.' :: t => dropDots t
  | s => s

/-- Fuel-driven worker for `ellipsisSub`. -/
def ellipsisSubF : Nat → LC → LC
  | 0, s => s
  | _ + 1, [] => []
  | fuel + 1, '.' :: '.' :: '.' :: t => str " . . . " ++ ellipsisSubF fuel (dropDots t)
  | fuel + 1, c :: t => c :: ellipsisSubF fuel t

/-- `re.sub(r'\.{3,}', ' . . . ', s)`: collapse every run of three or
more periods into a spaced ellipsis. -/
def ellipsisSub (s : LC) : LC := ellipsisSubF s.length s

/-- `format_quote`: the word count is taken on the raw quote before the
quote-mark substitutions; quotes of fewer than 50 words are wrapped
inline (bracket-capitalizing a lowercase first character), longer ones
become a block with every line indented by one space and the citation
on its own following line. -/
def formatQuote (quote citation_str : LC) : LC :=
  let words := pySplitWS quote
  let q1 := pyReplace quote (str "“") (str "\"")
  let q2 := pyReplace q1 (str "”") (str "\"")
  let q3 := pyReplace q2 (str "\"") [apos]
  let q4 := ellipsisSub q3
  if words.length < 50 then
    let q5 :=
      match q4 with
      | c :: t => if pyIsLowerCh c then '[' :: upC c :: ']' :: t else c :: t
      | [] => []
    str "“" ++ q5 ++ str "” " ++ citation_str
  else
    joinNL ((pySplitLines q4).map (fun l => ' ' :: l)) ++ '\n' :: citation_str

end Quote

section Renderer

/-!
## `_apply_signal_formatting` and `format_citation` (italic style)
-/

/-- One attempted match of the signal pattern
`(^|[.;]\s+)(sig)\s` (ignorecase) at the current position; the
replacement re-emits the prefix group, wraps the matched signal in
`<i>…</i>` and restores the consumed whitespace as a single space. -/
def sigAtt (sig : LC) (prev : Option Char) (s : LC) : Option (LC × Nat) :=
  let tryStart : Option (LC × Nat) :=
    if prev = none && icPrefix sig s then
      match (s.drop sig.length).head? with
      | some c =>
        if wsC c then
          some (str "<i>" ++ s.take sig.length ++ str "</i> ", sig.length + 1)
        else none
      | none => none
    else none
  match tryStart with
  | some r => some r
  | none =>
    match s with
    | c :: t =>
      if c = '.' || c = ';' then
        let w := t.takeWhile wsC
        if w.isEmpty then none
        else
          let rest := t.drop w.length
          if icPrefix sig rest then
            match (rest.drop sig.length).head? with
            | some d =>
              if wsC d then
                some (c :: w ++ str "<i>" ++ rest.take sig.length ++ str "</i> ",
                  1 + w.length + sig.length + 1)
              else none
            | none => none
          else none
      else none
    | [] => none

/-- `_apply_signal_formatting` with the default italic style: one
`re.sub` pass per signal, in the configured priority order. -/
def applySignalFormatting (text : LC) : LC :=
  CITATION_SIGNALS_ORDERED.foldl (fun t sig => subScan (sigAtt sig) t) text

/-- The sub for `rf"\bid.\b"`: the unescaped `.` in the source is the
regex any-character metacharacter, and the replacement is the literal
`<i>id.</i>` regardless of what that character matched. -/
def idSubAtt (prev : Option Char) (s : LC) : Option (LC × Nat) :=
  match s with
  | 'i' :: 'd' :: c :: rest =>
    if dotC c && boundaryB prev (some 'i') && boundaryB (some c) rest.head? then
      some (str "<i>id.</i>", 3)
    else none
  | _ => none

/-- The sub for `rf"\b{x}\b"` with `x` in `("supra", "infra")`
(case-sensitive, literal). -/
def crossRefAtt (w : LC) (prev : Option Char) (s : LC) : Option (LC × Nat) :=
  if w.isPrefixOf s && boundaryB prev s.head?
      && boundaryB ((s.take w.length).getLast?) ((s.drop w.length).head?) then
    some (str "<i>" ++ w ++ str "</i>", w.length)
  else none

/-- The sub for `rf"(?i)\b{re.escape(phrase)}\b"`: case-insensitive,
wrapping the matched text (`m.group(0)`) as it appeared. -/
def phraseAtt (w : LC) (prev : Option Char) (s : LC) : Option (LC × Nat) :=
  if icPrefix w s && boundaryB prev s.head?
      && boundaryB ((s.take w.length).getLast?) ((s.drop w.length).head?) then
    some (str "<i>" ++ s.take w.length ++ str "</i>", w.length)
  else none

/-- `format_citation` with the default italic style: build the raw
string, wrap the case name, the cross-references `id.`/`supra`/`infra`
and the explanatory phrases, then apply signal formatting. -/
def formatCitation (comps : CaseComps) : LC :=
  let s0 := comps.case_name ++ ' ' :: comps.volume ++ ' ' :: comps.reporter ++ ' ' :: comps.page
  let s1 := if pyTruthy comps.pinpoint then s0 ++ str ", " ++ comps.pinpoint.getD [] else s0
  let s2 := s1 ++ str " (" ++ comps.court ++ ' ' :: comps.year ++ [')']
  let s3 := pyReplace s2 comps.case_name (str "<i>" ++ comps.case_name ++ str "</i>")
  let s4 := subScan idSubAtt s3
  let s5 := subScan (crossRefAtt (str "supra")) s4
  let s6 := subScan (crossRefAtt (str "infra")) s5
  let s7 := subScan (phraseAtt (str "aff’d")) s6
  let s8 := subScan (phraseAtt (str "overruled by")) s7
  let s9 := subScan (phraseAtt (str "as quoted in")) s8
  applySignalFormatting s9

end Renderer

section ShortForm

/-!
## `ShortKey` and `format_short_citation`
-/

/-- `ShortKey` of the source (frozen dataclass): kind tag, volume,
reporter-or-code-or-title, pinpoint, and the sorted parallel triples. -/
structure ShortKey where
  kind : LC
  volume : Option LC
  reporter : Option LC
  pin : Option LC
  parallels : List (LC × LC × LC)
deriving DecidableEq, Repr

/-- A Python dict of citation components, with `.get` semantics
(`none` = key absent). -/
structure PyDict where
  case_name : Option LC := none
  volume : Option LC := none
  reporter : Option LC := none
  page : Option LC := none
  pinpoint : Option LC := none
  court : Option LC := none
  year : Option LC := none
  code : Option LC := none
  sectionF : Option LC := none  -- the Python dict key named section
  title : Option LC := none
  author : Option LC := none
  parallel : Option (List (LC × LC × LC)) := none
deriving DecidableEq, Repr

/-- The dict produced by a successful `CITATION_PATTERN` match. -/
def CaseComps.toDict (c : CaseComps) : PyDict :=
  { case_name := some c.case_name, volume := some c.volume,
    reporter := some c.reporter, page := some c.page,
    pinpoint := c.pinpoint, court := some c.court, year := some c.year }

/-- Lexicographic (code-point) strict order on strings (Python `<`). -/
def lcLtBool : LC → LC → Bool
  | [], [] => false
  | [], _ :: _ => true
  | _ :: _, [] => false
  | a :: as1, b :: bs1 =>
    if a < b then true else if b < a then false else lcLtBool as1 bs1

/-- Python tuple comparison on (volume, reporter, page) triples. -/
def tripleLtBool (x y : LC × LC × LC) : Bool :=
  if lcLtBool x.1 y.1 then true
  else if lcLtBool y.1 x.1 then false
  else if lcLtBool x.2.1 y.2.1 then true
  else if lcLtBool y.2.1 x.2.1 then false
  else lcLtBool x.2.2 y.2.2

/-- Stable insertion into a sorted list. -/
def insertT (x : LC × LC × LC) : List (LC × LC × LC) → List (LC × LC × LC)
  | [] => [x]
  | y :: ys => if tripleLtBool x y then x :: y :: ys else y :: insertT x ys

/-- Python `sorted` on parallel triples (stable, ascending). -/
def pySortTriples (l : List (LC × LC × LC)) : List (LC × LC × LC) :=
  l.foldl (fun acc x => insertT x acc) []

/-- The `ShortKey` built by `format_short_citation` for a record. -/
def buildShortKey (full : PyDict) (kind : LC) : ShortKey :=
  { kind := kind
    volume := full.volume
    reporter := pyOr (pyOr full.reporter full.code) full.title
    pin := pyOr (pyOr full.pinpoint full.page) full.sectionF
    parallels := pySortTriples (full.parallel.getD []) }

/-- Rendering of one parallel citation in a case short form. -/
def renderPar (p : LC × LC × LC) : LC :=
  p.1 ++ ' ' :: p.2.1 ++ str " at " ++ p.2.2

/-- `", ".join`. -/
def joinCommaL : List LC → LC
  | [] => []
  | [x] => x
  | x :: xs => x ++ str ", " ++ joinCommaL xs

/-- The kind-specific explicit short form (step 2 of
`format_short_citation`); `.error` marks the source's raised
exceptions (`KeyError`/`IndexError` on missing required fields, and
`ValueError("Unsupported short form kind")` for an unknown kind). -/
def explicitShort (full : PyDict) (kind : LC) : Except LC LC :=
  if kind = str "case" then
    match full.case_name with
    | none => .error (str "KeyError: " ++ apos :: str "case_name" ++ [apos])
    | some cn =>
      match (pySplitWS cn).head? with
      | none => .error (str "IndexError: list index out of range")
      | some nm =>
        match full.volume, full.reporter, full.page with
        | some vol, some rep, some pg =>
          let base := nm ++ str ", " ++ vol ++ ' ' :: rep ++ str " at " ++ pg
          (match full.parallel with
           | some ps =>
             if !ps.isEmpty then .ok (base ++ str ", " ++ joinCommaL (ps.map renderPar))
             else .ok base
           | none => .ok base)
        | _, _, _ => .error (str "KeyError")
  else if kind = str "statute" then
    let code := pyStrip (full.code.getD [])
    match full.sectionF with
    | none => .error (str "KeyError: " ++ apos :: str "section" ++ [apos])
    | some sec =>
      if !code.isEmpty then .ok (code ++ str " § " ++ sec) else .ok (str "§ " ++ sec)
  else if kind = str "reg" then
    match full.sectionF with
    | none => .error (str "KeyError: " ++ apos :: str "section" ++ [apos])
    | some sec =>
      if pyTruthy full.title then .ok (full.title.getD [] ++ str " C.F.R. § " ++ sec)
      else .ok (str "§ " ++ sec)
  else if kind = str "book" then
    .ok (if pyTruthy full.author then
      full.author.getD [] ++ str ", supra" ++
        (if pyTruthy full.pinpoint then str " at " ++ full.pinpoint.getD [] else [])
    else str "Id.")
  else if kind = str "article" then
    let pp := pyOr full.pinpoint full.page
    .ok (if pyTruthy full.author then
      full.author.getD [] ++ str ", supra" ++
        (if pyTruthy pp then str " at " ++ pp.getD [] else [])
    else str "Id.")
  else .error (str "Unsupported short form kind")

/-- Guarantee a trailing period on an explicit short form. -/
def ensureDot (s : LC) : LC := if s.getLast? = some '.' then s else s ++ ['.']

/-- `format_short_citation`, with the checker's `last_short_key` state
passed and returned explicitly.  When the key equals the stored key the
result is the `Id.` form and the state is returned unchanged; otherwise
the explicit short form (with guaranteed trailing period) is produced
and the state is set to the new key; on an exception the state is
returned as it was (the source raises before the assignment). -/
def formatShortCitation (last : Option ShortKey) (full : PyDict) (kind : LC) :
    Except LC LC × Option ShortKey :=
  let pin := pyOr (pyOr full.pinpoint full.page) full.sectionF
  let key := buildShortKey full kind
  if last = some key then
    (if pyTruthy pin then .ok (str "Id. at " ++ pin.getD [] ++ str ".") else .ok (str "Id."),
      last)
  else
    match explicitShort full kind with
    | .error e => (.error e, last)
    | .ok short => (.ok (ensureDot short), some key)

end ShortForm

section Difflib

/-!
## `difflib.SequenceMatcher` (with `isjunk=None`)

The matches count that feeds `ratio()` is the sum of the sizes of the
matching blocks; the block decomposition recursively splits around the
longest match.  Junk only arises from the autojunk heuristic
(characters occurring more than `len(b)//100 + 1` times when
`len(b) ≥ 200`).
-/

/-- Ascending occurrence positions of `c` in `b` (`b2j` entries before
junk removal). -/
def posList (b : LC) (c : Char) : List Nat :=
  (List.range b.length).filter (fun j => b.getD j ' ' == c)

/-- The autojunk popularity test (`bjunk` membership). -/
def isPopularB (b : LC) (c : Char) : Bool :=
  b.length ≥ 200 && (posList b c).length > b.length / 100 + 1

/-- `b2j` lookup: positions of `c` in `b`, with popular characters
removed. -/
def b2jF (b : LC) (c : Char) : List Nat :=
  if isPopularB b c then [] else posList b c

/-- Dict-style insert into the `j2len` association list. -/
def insertAL (m : List (Nat × Nat)) (k v : Nat) : List (Nat × Nat) :=
  match m with
  | [] => [(k, v)]
  | (k', v') :: t => if k' = k then (k, v) :: t else (k', v') :: insertAL t k v

/-- Inner loop of `find_longest_match` over the `b2j` positions of one
`a`-character (with the `j < blo` continue and `j ≥ bhi` break). -/
def flmJs (blo bhi i : Nat) (j2lenPrev : List (Nat × Nat)) :
    List Nat → List (Nat × Nat) → Nat × Nat × Nat → List (Nat × Nat) × (Nat × Nat × Nat)
  | [], newJ, best => (newJ, best)
  | j :: js, newJ, best =>
    if j < blo then flmJs blo bhi i j2lenPrev js newJ best
    else if j ≥ bhi then (newJ, best)
    else
      let k := (if j = 0 then 0 else (j2lenPrev.lookup (j - 1)).getD 0) + 1
      let newJ' := insertAL newJ j k
      let best' := if k > best.2.2 then (i + 1 - k, j + 1 - k, k) else best
      flmJs blo bhi i j2lenPrev js newJ' best'

/-- Main loop of `find_longest_match` over the `a`-indices. -/
def flmIs (a b : LC) (blo bhi : Nat) :
    List Nat → List (Nat × Nat) → Nat × Nat × Nat → Nat × Nat × Nat
  | [], _, best => best
  | i :: is1, j2len, best =>
    let r := flmJs blo bhi i j2len (b2jF b (a.getD i ' ')) [] best
    flmIs a b blo bhi is1 r.1 r.2

/-- The backward extension loops of `find_longest_match` (run twice:
first for non-junk neighbours, then for junk neighbours). -/
def extLowF : Nat → LC → LC → Nat → Nat → Bool → Nat × Nat × Nat → Nat × Nat × Nat
  | 0, _, _, _, _, _, best => best
  | fuel + 1, a, b, alo, blo, junkVal, (bi, bj, bs) =>
    if bi > alo && bj > blo && (isPopularB b (b.getD (bj - 1) ' ') == junkVal)
        && (a.getD (bi - 1) ' ' == b.getD (bj - 1) ' ') then
      extLowF fuel a b alo blo junkVal (bi - 1, bj - 1, bs + 1)
    else (bi, bj, bs)

/-- The forward extension loops of `find_longest_match`. -/
def extHighF : Nat → LC → LC → Nat → Nat → Bool → Nat × Nat × Nat → Nat × Nat × Nat
  | 0, _, _, _, _, _, best => best
  | fuel + 1, a, b, ahi, bhi, junkVal, (bi, bj, bs) =>
    if bi + bs < ahi && bj + bs < bhi && (isPopularB b (b.getD (bj + bs) ' ') == junkVal)
        && (a.getD (bi + bs) ' ' == b.getD (bj + bs) ' ') then
      extHighF fuel a b ahi bhi junkVal (bi, bj, bs + 1)
    else (bi, bj, bs)

/-- `SequenceMatcher.find_longest_match(alo, ahi, blo, bhi)`. -/
def findLongestMatch (a b : LC) (alo ahi blo bhi : Nat) : Nat × Nat × Nat :=
  let best0 := (alo, blo, 0)
  let best1 := flmIs a b blo bhi (List.range' alo (ahi - alo)) [] best0
  let best2 := extLowF (a.length + 1) a b alo blo false best1
  let best3 := extHighF (a.length + 1) a b ahi bhi false best2
  let best4 := extLowF (a.length + 1) a b alo blo true best3
  extHighF (a.length + 1) a b ahi bhi true best4

/-- Total size of all matching blocks (the `matches` count of
`ratio()`), by the recursive block decomposition of
`get_matching_blocks`.  Each recursion splits a range strictly, so the
fuel `a.length + b.length + 1` supplied by `smMatches` suffices. -/
def matchesSumF : Nat → LC → LC → Nat → Nat → Nat → Nat → Nat
  | 0, _, _, _, _, _, _ => 0
  | fuel + 1, a, b, alo, ahi, blo, bhi =>
    let r := findLongestMatch a b alo ahi blo bhi
    let i := r.1
    let j := r.2.1
    let k := r.2.2
    if k = 0 then 0
    else matchesSumF fuel a b alo i blo j + k + matchesSumF fuel a b (i + k) ahi (j + k) bhi

/-- The `matches` count of `SequenceMatcher(None, a, b).ratio()`. -/
def smMatches (a b : LC) : Nat :=
  matchesSumF (a.length + b.length + 1) a b 0 a.length 0 b.length

/-- `ratio() > thresh` for `thresh = num10/10`, as an exact rational
comparison (`ratio() = 2*M/T`, and `1.0` when `T = 0`). -/
def ratioGtTenth (m t num10 : Nat) : Bool :=
  if t = 0 then 10 > num10 else 20 * m > num10 * t

/-- `_check_quote`: fuzzy-compare the provided quote against the stored
source text, with threshold 0.3 for short quotes and 0.6 otherwise. -/
def checkQuote (prov orig : LC) : Bool :=
  let thresh10 := if prov.length < 50 then 3 else 6
  ratioGtTenth (smMatches prov orig) (prov.length + orig.length) thresh10

end Difflib

section Pipeline

/-!
## `_remove_signals`, `fetch_case_data`, `validate_full_citation`,
`process_document`
-/

/-- The signal list of `_remove_signals`, each stripped of asterisks
and ordered longest-first (the modelled signals share one length, so
the stable sort keeps their order). -/
def signalsSorted : List LC := VALID_CITATION_SIGNALS

/-- One attempted match of `\*(sig1|sig2|...)\*` (ignorecase). -/
def sigStarAtt (_ : Option Char) (s : LC) : Option (LC × Nat) :=
  match s with
  | '*' :: rest =>
    signalsSorted.findSome? fun sig =>
      if icPrefix sig rest && (rest.drop sig.length).head? = some '*' then
        some ([], sig.length + 2)
      else none
  | _ => none

/-- `_remove_signals`: delete starred signals, then strip whitespace. -/
def removeSignals (txt : LC) : LC := pyStrip (subScan sigStarAtt txt)

/-- A record of the placeholder case database (`text`,
`valid_pin_range`). -/
structure DbRec where
  text : LC
  lowPin : Int
  highPin : Int
deriving DecidableEq, Repr

/-- The synthetic database of `fetch_case_data`. -/
def caseDb : List (LC × DbRec) := [
  (str "291_U.S._193", ⟨str "Brown v. Board opinion text here...", 190, 210⟩),
  (str "347_U.S._483", ⟨str "Brown v. Board decision text...", 480, 500⟩)]

/-- Digits to a natural number. -/
def natFromDigits (l : LC) : Nat := l.foldl (fun n c => n * 10 + (c.toNat - 48)) 0

/-- Python `int(str)`: optional surrounding whitespace and sign, then
at least one digit (`none` where Python raises `ValueError`). -/
def pyIntParse (s : LC) : Option Int :=
  let t := pyStrip s
  match t with
  | '+' :: r => if !r.isEmpty && r.all digitC then some (natFromDigits r : Int) else none
  | '-' :: r => if !r.isEmpty && r.all digitC then some (-(natFromDigits r : Int)) else none
  | r => if !r.isEmpty && r.all digitC then some (natFromDigits r : Int) else none

/-- Decimal rendering of an integer. -/
def showIntLC (n : Int) : LC := (toString n).data

/-- `fetch_case_data`: look up the synthetic database by
volume/reporter/page; when a record is found and a truthy pincite was
supplied, range-check the pincite (or pincite range), raising
`ValueError` (modelled as `.error`) when out of range or unparsable. -/
def fetchCaseData (vol rep pg : LC) (pincite : Option LC) : Except LC (Option DbRec) :=
  let key := vol ++ '_' :: rep ++ '_' :: pg
  let rec? := caseDb.lookup key
  match rec?, pincite with
  | some r, some p =>
    if !p.isEmpty then
      if p.contains '-' then
        match splitAllSub ['-'] p with
        | [s1, s2] =>
          match pyIntParse s1, pyIntParse s2 with
          | some st, some en =>
            if r.lowPin ≤ st ∧ st ≤ r.highPin ∧ r.lowPin ≤ en ∧ en ≤ r.highPin then
              .ok (some r)
            else
              .error (str "Pincite range " ++ p ++ str " outside " ++ showIntLC r.lowPin
                ++ '-' :: showIntLC r.highPin)
          | _, _ => .error (str "invalid literal for int with base 10")
        | _ => .error (str "too many values to unpack (expected 2)")
      else
        match pyIntParse p with
        | some v =>
          if r.lowPin ≤ v ∧ v ≤ r.highPin then .ok (some r)
          else
            .error (str "Pincite " ++ showIntLC v ++ str " outside " ++ showIntLC r.lowPin
              ++ '-' :: showIntLC r.highPin)
        | none => .error (str "invalid literal for int with base 10")
    else .ok (some r)
  | _, _ => .ok rec?

/-- A failure of `validate_full_citation`: either the aggregated
structural errors (`CitationValidationException`) or a `ValueError`
message. -/
inductive VErr where
  | validation (errors : List CitationError)
  | valueError (msg : LC)
deriving DecidableEq, Repr

/-- Steps 1–4 of `validate_full_citation` (month/journal preprocessing,
structural-error collection, grammar parse, reporter allow-list and
reporter/court compatibility), shared by every call regardless of the
quote and pincite arguments. -/
def validatePre (citation : LC) : Except VErr (LC × CaseComps) :=
  let c1 := abbreviateMonthsInCitation citation
  let c2 := abbreviateJournalsInCitation c1
  let errs := collectFormatErrors c2
  if !errs.isEmpty then .error (.validation errs)
  else
    match citationMatch c2 with
    | none =>
      .error (.validation
        [⟨str "Unable to parse citation: " ++ c2, 0, (c2.length : Int), some (str "parse")⟩])
    | some comps =>
      if !ALLOWED_REPORTERS.contains comps.reporter then
        .error (.valueError
          (str "Reporter " ++ apos :: comps.reporter ++ apos :: str " not allowed"))
      else
        match validateReporterForCourtR comps.court (some comps.reporter) with
        | .error m => .error (.valueError m)
        | .ok _ => .ok (c2, comps)

/-- `validate_full_citation(citation, provided_quote, pincite)`:
returns the parsed components (with the trailing-comma strip applied to
the case name), the fetched case data (`none` when no pincite was
passed, so no repository lookup happens), and the formatted string. -/
def validateFullCitation (citation : LC) (provided_quote pincite : Option LC) :
    Except VErr (CaseComps × Option DbRec × LC) :=
  match validatePre citation with
  | .error e => .error e
  | .ok (_, comps) =>
    let dataE : Except VErr (Option DbRec) :=
      match pincite with
      | some p =>
        match fetchCaseData comps.volume comps.reporter comps.page (some p) with
        | .error m => .error (.valueError m)
        | .ok d =>
          if d.isNone then
            .error (.valueError (str "Citation not found or pincite incorrect"))
          else .ok d
      | none => .ok none
    match dataE with
    | .error e => .error e
    | .ok data =>
      let quoteCheck : Except VErr Unit :=
        match provided_quote with
        | some q =>
          if !q.isEmpty then
            let cleaned := removeSignals q
            let origText := match data with | some r => r.text | none => []
            if !checkQuote cleaned origText then
              .error (.valueError (str "Provided quote does not match source text"))
            else .ok ()
          else .ok ()
        | none => .ok ()
      match quoteCheck with
      | .error e => .error e
      | .ok _ =>
        let comps' := { comps with case_name := pyRStripComma comps.case_name }
        .ok (comps', data, formatCitation comps')

/-- Fuel-driven worker for `splitSemis` (each step consumes at least
one character). -/
def splitSemisF : Nat → LC → LC → List LC
  | 0, acc, s => [acc.reverse ++ s]
  | _ + 1, acc, [] => [acc.reverse]
  | fuel + 1, acc, ';' :: t =>
    let w := t.takeWhile wsC
    acc.reverse :: splitSemisF fuel [] (t.drop w.length)
  | fuel + 1, acc, c :: t => splitSemisF fuel (c :: acc) t

/-- `re.split(r';\s*', text)`. -/
def splitSemis (text : LC) : List LC := splitSemisF (text.length + 1) [] text

/-- `CITATION_PATTERN` attempted at position `pos` of `s`: the leading
`^` of the pattern restricts matches to position 0. -/
def reMatchPos (s : LC) (pos : Nat) : Option (CaseComps × Nat) :=
  if pos = 0 then citationMatchEnd s else none

/-- Fuel-driven scanner for `finditer`: attempt a match at each
position, emitting non-overlapping matches and advancing past them. -/
def finditerGo (s : LC) : Nat → Nat → List CaseComps
  | 0, _ => []
  | fuel + 1, pos =>
    if pos > s.length then []
    else
      match reMatchPos s pos with
      | some (c, e) => c :: finditerGo s fuel (if e > pos then e else pos + 1)
      | none => finditerGo s fuel (pos + 1)

/-- `CITATION_PATTERN.finditer(segment)`. -/
def finditerCitation (s : LC) : List CaseComps := finditerGo s (s.length + 2) 0

/-- Insert-or-overwrite into an association list, keeping the original
insertion position on overwrite (Python dict update semantics). -/
def dictInsert (m : List (LC × CaseComps)) (k : LC) (v : CaseComps) :
    List (LC × CaseComps) :=
  match m with
  | [] => [(k, v)]
  | (k', v') :: t => if k' = k then (k, v) :: t else (k', v') :: dictInsert t k v

/-- The composite key `f"{volume}_{reporter}_{page}"`. -/
def compKey (c : CaseComps) : LC := c.volume ++ '_' :: c.reporter ++ '_' :: c.page

/-- `process_document`: split the text on `;\s*`, scan each segment
with `finditer`, and index every parsed citation by its composite key
(later duplicates overwrite earlier ones). -/
def processDocument (text : LC) : List (LC × CaseComps) :=
  (splitSemis text).foldl
    (fun m seg => (finditerCitation seg).foldl (fun m' c => dictInsert m' (compKey c) c) m)
    []

end Pipeline

section Fixer

/-!
## `citationfixer.py`
-/

/-- `fix_citation_format`: strip, try the repair regex once, and
rebuild `Case, Volume Reporter Page (Court Year)`; hand back the
stripped original when the regex does not match. -/
def fixCitationFormat (citation : LC) : LC :=
  let orig := pyStrip citation
  match matchFirst [FIX_PATTERN] orig [] with
  | some (caps, _) =>
    match groupV caps 1, groupV caps 2, groupV caps 3, groupV caps 4, groupV caps 6 with
    | some cse, some vol, some rep, some pg, some yr =>
      let court := pyStrip ((groupV caps 5).getD [])
      let inside := pyStrip (court ++ ' ' :: yr)
      pyStrip cse ++ str ", " ++ vol ++ ' ' :: rep ++ ' ' :: pg ++ str " (" ++ inside ++ [')']
    | _, _, _, _, _ => orig
  | none => orig

/-- A failure of `auto_fix_citation` (`CitationFixError`).  The
`stillInvalid` payload records exactly what the source interpolates
into the message: the exception raised by re-validating the REPAIRED
text (labelled "Original errors" in the message) and the attempted
repair text. -/
inductive FixErr where
  | noChange (citation : LC)
  | stillInvalid (reValidationErrors : List CitationError) (fixedText : LC)
deriving DecidableEq, Repr

/-- `auto_fix_citation`: validate the original (returning it unchanged
on success); on a `CitationValidationException` apply one mechanical
reformat, failing with `noChange` if the text is unchanged; otherwise
re-validate once.  `ValueError`s (semantic failures) propagate uncaught
(`.inr`). -/
def autoFixCitation (citation : LC) (provided_quote pincite : Option LC) :
    Except (FixErr ⊕ VErr) LC :=
  match validateFullCitation citation provided_quote pincite with
  | .ok _ => .ok citation
  | .error (.valueError m) => .error (.inr (.valueError m))
  | .error (.validation _) =>
    let fixed := fixCitationFormat citation
    if fixed = citation then .error (.inl (.noChange citation))
    else
      match validateFullCitation fixed provided_quote pincite with
      | .ok _ => .ok fixed
      | .error (.validation e2) => .error (.inl (.stillInvalid e2 fixed))
      | .error (.valueError m) => .error (.inr (.valueError m))

end Fixer

/-- Check 7: the generic structural fallback, emitted only when no
earlier check fired and the full case grammar still fails to match. -/
def checkFallbackSpec (citation : LC) : List CitationError :=
  if (checkParens citation ++ checkComma citation ++ checkVRP citation ++
      checkParenthetical citation).isEmpty && (citationMatch citation).isNone then
    [⟨str "Citation structure invalid. Expected: CaseName Volume Reporter Page (Court Year).",
      0, (citation.length : Int), some (str "overall")⟩]
  else []

/-- The spec's reformulation of the structural validator: the ordered,
never-deduplicated concatenation of the checks in check order. -/
def collectFormatErrorsSpec (citation : LC) : List CitationError :=
  checkParens citation ++ checkComma citation ++ checkVRP citation ++
    checkParenthetical citation ++ checkFallbackSpec citation

/-- The components parsed from `Alpha v. Beta, 10 U.S. 100 (U.S. 1800)`. -/
def alphaComps : CaseComps :=
  ⟨str "Alpha v. Beta", str "10", str "U.S.", str "100", none, str "U.S.", str "1800"⟩

/-- The statute components dict of the extended test
(`{'code': '12 C.S.C.', 'section': '3456'}`). -/
def statuteDict : PyDict := { code := some (str "12 C.S.C."), sectionF := some (str "3456") }

/-- A quote of `n` space-separated one-letter words, for the word-count
boundary checks. -/
def mkWQuote (n : Nat) : LC :=
  (List.replicate n (str "w")).foldr
    (fun w acc => if acc.isEmpty then w else w ++ ' ' :: acc) []

/-- The quote-mark and ellipsis substitutions of `format_quote`
(curly double quotes to straight, straight double quotes to single,
runs of three or more periods to a spaced ellipsis). -/
def quoteSubstitutions (quote : LC) : LC :=
  ellipsisSub (pyReplace (pyReplace (pyReplace quote (str "“") (str "\"")) (str "”")
    (str "\"")) (str "\"") [apos])

section Claims

/-!
## Claims
-/

/-- Helper: at start positions ≥ 1 the `^`-anchored citation pattern
cannot match, so the finditer scan finds nothing there. -/
lemma finditerGo_pos_pos (s : LC) (fuel : Nat) :
    ∀ pos : Nat, 1 ≤ pos → finditerGo s fuel pos = [] := by
  induction fuel with
  | zero => intro pos _; rfl
  | succ n ih =>
    intro pos hpos
    unfold finditerGo
    by_cases hp : pos > s.length
    · simp [hp]
    · have hne : pos ≠ 0 := by omega
      simp only [hp, if_false, reMatchPos, hne, if_neg, ite_false]
      exact ih (pos + 1) (by omega)

/-- Helper: because the case grammar rule is anchored (`^...$`),
`finditer` on a segment yields exactly the whole-segment match or
nothing. -/
lemma finditerCitation_single (s : LC) :
    finditerCitation s =
      match citationMatchEnd s with
      | some (c, _) => [c]
      | none => [] := by
  unfold finditerCitation
  show finditerGo s (s.length + 1 + 1) 0 = _
  unfold finditerGo
  have h0 : ¬ (0 > s.length) := by omega
  simp only [h0, if_false, reMatchPos, if_pos rfl, ite_true]
  cases hm : citationMatchEnd s with
  | none => exact finditerGo_pos_pos s _ 1 (by omega)
  | some ce =>
    obtain ⟨c, e⟩ := ce
    have : finditerGo s (s.length + 1) (if e > 0 then e else 0 + 1) = [] := by
      by_cases he : e > 0
      · simp only [he, if_true]; exact finditerGo_pos_pos s _ e (by omega)
      · simp only [he, if_false]; exact finditerGo_pos_pos s _ 1 (by omega)
    simp only [this]

/-- C1 (counterexample).  The claim asserts that matching is not
anchored to the whole segment, so multiple citations inside one
segment are all extracted.  On the code, `CITATION_PATTERN` is
anchored (`^...$`): for a semicolon-free document containing two
complete case citations, the citation `A v. B, 1 U.S. 2 (U.S. 1900)`
occurs in the single segment and matches the case grammar rule, yet
its key `1_U.S._2` is absent from the result; the only entry is the
merged whole-segment match keyed `3_U.S._4`. -/
theorem C1_counterexample :
    (citationMatch (str "A v. B, 1 U.S. 2 (U.S. 1900)")).isSome = true ∧
    containsSub (str "A v. B, 1 U.S. 2 (U.S. 1900) C v. D, 3 U.S. 4 (U.S. 1901)")
      (str "A v. B, 1 U.S. 2 (U.S. 1900)") = true ∧
    (splitSemis (str "A v. B, 1 U.S. 2 (U.S. 1900) C v. D, 3 U.S. 4 (U.S. 1901)")).length = 1 ∧
    (processDocument (str "A v. B, 1 U.S. 2 (U.S. 1900) C v. D, 3 U.S. 4 (U.S. 1901)")).lookup
      (str "1_U.S._2") = none ∧
    (processDocument (str "A v. B, 1 U.S. 2 (U.S. 1900) C v. D, 3 U.S. 4 (U.S. 1901)")).map
      Prod.fst = [str "3_U.S._4"] :=
  ⟨by decide, by decide, by decide, by decide, by decide⟩

/-- C1 (amended).  `processDocument` splits the text on
semicolon-delimited segments and extracts at most one citation per
segment — the case grammar rule is anchored to the whole segment, so
`finditer` yields at most the single whole-segment match — indexing it
by the composite key `volume_reporter_page`, with later duplicates
overwriting earlier ones (`dictInsert`). -/
theorem C1_amended :
    (∀ seg : LC, (finditerCitation seg).length ≤ 1) ∧
    (∀ text : LC, processDocument text =
      (splitSemis text).foldl
        (fun m seg =>
          match citationMatch seg with
          | some c => dictInsert m (compKey c) c
          | none => m) []) := by
  have hstep : ∀ (seg : LC) (m : List (LC × CaseComps)),
      (finditerCitation seg).foldl (fun m' c => dictInsert m' (compKey c) c) m =
        (match citationMatch seg with
         | some c => dictInsert m (compKey c) c
         | none => m) := by
    intro seg m
    rw [finditerCitation_single]
    unfold citationMatch
    cases citationMatchEnd seg with
    | none => rfl
    | some ce => cases ce with | mk c e => rfl
  constructor
  · intro seg
    rw [finditerCitation_single]
    cases citationMatchEnd seg with
    | none => simp
    | some ce => cases ce with | mk c e => simp
  · intro text
    unfold processDocument
    generalize splitSemis text = segs
    suffices h : ∀ (l : List LC) (m : List (LC × CaseComps)),
        l.foldl (fun m' seg => (finditerCitation seg).foldl
          (fun m'' c => dictInsert m'' (compKey c) c) m') m =
        l.foldl (fun m' seg =>
          (match citationMatch seg with
           | some c => dictInsert m' (compKey c) c
           | none => m')) m from h segs []
    intro l
    induction l with
    | nil => intro m; rfl
    | cons seg rest ih =>
      intro m
      simp only [List.foldl_cons]
      rw [hstep seg m]
      exact ih _

/-- Helper: what a successful `validatePre` guarantees. -/
lemma validatePre_ok (citation c2 : LC) (comps : CaseComps)
    (h : validatePre citation = .ok (c2, comps)) :
    c2 = abbreviateJournalsInCitation (abbreviateMonthsInCitation citation) ∧
    citationMatch c2 = some comps := by
  unfold validatePre at h
  dsimp only [] at h
  split at h
  · cases h
  · split at h
    · cases h
    · rename_i comps' heq
      split at h
      · cases h
      · split at h
        · cases h
        · cases h
          exact ⟨rfl, heq⟩

/-- Helper: the successful result of `validate_full_citation` is built
from the grammar parse of the preprocessed text: the case name is the
parsed case name with only trailing commas stripped, and the rendered
string is `format_citation` of exactly that record. -/
lemma validateFullCitation_ok_shape (citation : LC) (q p : Option LC)
    (c : CaseComps) (d : Option DbRec) (out : LC)
    (h : validateFullCitation citation q p = .ok (c, d, out)) :
    ∃ c₀ : CaseComps,
      citationMatch (abbreviateJournalsInCitation (abbreviateMonthsInCitation citation)) =
        some c₀ ∧
      c = { c₀ with case_name := pyRStripComma c₀.case_name } ∧
      out = formatCitation c := by
  unfold validateFullCitation at h
  cases hpre : validatePre citation with
  | error e => rw [hpre] at h; cases h
  | ok pr =>
    obtain ⟨c2, comps⟩ := pr
    rw [hpre] at h
    obtain ⟨hc2, hmatch⟩ := validatePre_ok citation c2 comps hpre
    simp only at h
    split at h
    · cases h
    · split at h
      · cases h
      · cases h
        refine ⟨comps, ?_, rfl, rfl⟩
        rw [← hc2]; exact hmatch

/-- C2 (counterexample).  The claim asserts that the case-name
normalizer's rewrite sequence is applied to the parsed case name before
the renderer builds the output.  On the code, `validate_full_citation`
only strips trailing commas: for `The Foo Bar v. Baz Qux, 1 U.S. 2
(U.S. 1900)` the omission rules would produce `Bar v. Qux`, but the
rendered output wraps the raw name `The Foo Bar v. Baz Qux` and the
omitted form appears nowhere in it. -/
theorem C2_counterexample :
    validateFullCitation (str "The Foo Bar v. Baz Qux, 1 U.S. 2 (U.S. 1900)") none none =
      .ok (⟨str "The Foo Bar v. Baz Qux", str "1", str "U.S.", str "2", none,
            str "U.S.", str "1900"⟩, none,
        str "<i>The Foo Bar v. Baz Qux</i> 1 U.S. 2 (U.S. 1900)") ∧
    omitWordsInCaseName (str "The Foo Bar v. Baz Qux") = some (str "Bar v. Qux") ∧
    containsSub (str "<i>The Foo Bar v. Baz Qux</i> 1 U.S. 2 (U.S. 1900)")
      (str "Bar v. Qux") = false :=
  ⟨by rfl, by rfl, by decide⟩

/-- C2 (amended).  For every citation accepted by
`validate_full_citation`, only a trailing-comma strip is applied to the
parsed case name before the renderer builds the output string; the
ordered omission rewrite sequence (`omit_words_in_case_name`) exists in
the source but is not invoked on the accepted citation's case name. -/
theorem C2_amended (citation : LC) (q p : Option LC)
    (c : CaseComps) (d : Option DbRec) (out : LC)
    (h : validateFullCitation citation q p = .ok (c, d, out)) :
    ∃ c₀ : CaseComps,
      citationMatch (abbreviateJournalsInCitation (abbreviateMonthsInCitation citation)) =
        some c₀ ∧
      c = { c₀ with case_name := pyRStripComma c₀.case_name } ∧
      out = formatCitation c :=
  validateFullCitation_ok_shape citation q p c d out h

/-- C2 (witness): the amended theorem applied at the round-trip example
of §8. -/
theorem C2_amended_witness :
    ∃ c₀ : CaseComps,
      citationMatch (abbreviateJournalsInCitation (abbreviateMonthsInCitation
        (str "Brown v. Board, 347 U.S. 483 (U.S. 1954)"))) = some c₀ ∧
      (⟨str "Brown v. Board", str "347", str "U.S.", str "483", none,
          str "U.S.", str "1954"⟩ : CaseComps) =
        { c₀ with case_name := pyRStripComma c₀.case_name } ∧
      str "<i>Brown v. Board</i> 347 U.S. 483 (U.S. 1954)" =
        formatCitation ⟨str "Brown v. Board", str "347", str "U.S.", str "483", none,
          str "U.S.", str "1954"⟩ :=
  C2_amended (str "Brown v. Board, 347 U.S. 483 (U.S. 1954)") none none
    ⟨str "Brown v. Board", str "347", str "U.S.", str "483", none, str "U.S.", str "1954"⟩
    none (str "<i>Brown v. Board</i> 347 U.S. 483 (U.S. 1954)") (by rfl)

end Claims



/-- C3.  The short-citation resolver: when the record's `ShortKey`
equals the stored `last_short_key`, the result is `Id.` (or
`Id. at <pin>.` when a pin is available) and the state is unchanged;
otherwise the kind-specific explicit short form is returned with a
guaranteed trailing period and the state is set to the new key.
Concretely, validating `Alpha v. Beta, 10 U.S. 100 (U.S. 1800)` and
requesting a case short form twice yields `Alpha, 10 U.S. at 100.`
followed by `Id. at 100.`. -/
theorem C3_short_resolver :
    (∀ (last : Option ShortKey) (full : PyDict) (kind : LC),
        last = some (buildShortKey full kind) →
        formatShortCitation last full kind =
          (if pyTruthy (pyOr (pyOr full.pinpoint full.page) full.sectionF) then
            .ok (str "Id. at " ++ (pyOr (pyOr full.pinpoint full.page) full.sectionF).getD []
              ++ str ".")
          else .ok (str "Id."), last)) ∧
    (∀ (last : Option ShortKey) (full : PyDict) (kind : LC) (s₀ : LC),
        last ≠ some (buildShortKey full kind) →
        explicitShort full kind = .ok s₀ →
        formatShortCitation last full kind =
          (.ok (ensureDot s₀), some (buildShortKey full kind)) ∧
        (ensureDot s₀).getLast? = some '.') ∧
    (validateFullCitation (str "Alpha v. Beta, 10 U.S. 100 (U.S. 1800)") none none =
        .ok (alphaComps, none, str "<i>Alpha v. Beta</i> 10 U.S. 100 (U.S. 1800)") ∧
      formatShortCitation none alphaComps.toDict (str "case") =
        (.ok (str "Alpha, 10 U.S. at 100."),
          some (buildShortKey alphaComps.toDict (str "case"))) ∧
      formatShortCitation (some (buildShortKey alphaComps.toDict (str "case")))
          alphaComps.toDict (str "case") =
        (.ok (str "Id. at 100."), some (buildShortKey alphaComps.toDict (str "case")))) := by
  refine ⟨?_, ?_, by rfl, by rfl, by rfl⟩
  · intro last full kind h
    unfold formatShortCitation
    rw [if_pos h, h]
  · intro last full kind s₀ hne hexp
    unfold formatShortCitation
    rw [if_neg hne, hexp]
    refine ⟨rfl, ?_⟩
    unfold ensureDot
    by_cases hd : s₀.getLast? = some '.'
    · rw [if_pos hd]; exact hd
    · rw [if_neg hd]
      exact List.getLast?_concat s₀

/-- C3 (witness): the resolver theorem applied at concrete states — the
`Id.` branch at a statute record whose key is already current, and the
explicit branch at the Alpha case record from a fresh state. -/
theorem C3_short_resolver_witness :
    formatShortCitation (some (buildShortKey statuteDict (str "statute"))) statuteDict
        (str "statute") =
      (.ok (str "Id. at 3456."), some (buildShortKey statuteDict (str "statute"))) ∧
    formatShortCitation none alphaComps.toDict (str "case") =
      (.ok (ensureDot (str "Alpha, 10 U.S. at 100")),
        some (buildShortKey alphaComps.toDict (str "case"))) := by
  constructor
  · have h := C3_short_resolver.1 (some (buildShortKey statuteDict (str "statute")))
      statuteDict (str "statute") rfl
    rw [h]; rfl
  · exact (C3_short_resolver.2.1 none alphaComps.toDict (str "case")
      (str "Alpha, 10 U.S. at 100") (by decide) (by rfl)).1

/-- C4.  For every citation text containing no parenthesis character
and no comma, the structural validator's error list contains both a
"missing parentheses" error and a "missing comma" error. -/
theorem C4_missing_both (citation : LC)
    (hp : citation.contains '(' = false)
    (hq : citation.contains ')' = false)
    (hc : citation.contains ',' = false) :
    (∃ e ∈ collectFormatErrors citation, e.field = some (str "parentheses")) ∧
    (∃ e ∈ collectFormatErrors citation, e.field = some (str "comma")) := by
  have hmem : (',' ∈ citation) → False := by
    intro hm
    have h1 : citation.elem ',' = true := List.elem_eq_true_of_mem hm
    have h2 : citation.elem ',' = false := hc
    rw [h1] at h2; cases h2
  have hpfx : (beforeFirst '(' citation).contains ',' = false := by
    cases hv : (beforeFirst '(' citation).contains ',' with
    | false => rfl
    | true =>
      have hv' : (beforeFirst '(' citation).elem ',' = true := hv
      have hmem2 : ',' ∈ beforeFirst '(' citation := List.mem_of_elem_eq_true hv'
      have hmem3 : ',' ∈ citation := by
        unfold beforeFirst at hmem2
        exact (List.takeWhile_prefix _).subset hmem2
      exact absurd hmem3 hmem
  have h1 : checkParens citation =
      [⟨str "Missing parentheses around court and year (…)", 0, (citation.length : Int),
        some (str "parentheses")⟩] := by
    unfold checkParens
    rw [hp]
    rfl
  have h2 : checkComma citation =
      [⟨str "Missing comma before the parenthetical containing court and year.", 0,
        ((beforeFirst '(' citation).length : Int), some (str "comma")⟩] := by
    unfold checkComma
    rw [hpfx]
    rfl
  constructor
  · refine ⟨⟨str "Missing parentheses around court and year (…)", 0,
      (citation.length : Int), some (str "parentheses")⟩, ?_, rfl⟩
    unfold collectFormatErrors
    dsimp only []
    rw [h1]
    split <;> simp
  · refine ⟨⟨str "Missing comma before the parenthetical containing court and year.", 0,
      ((beforeFirst '(' citation).length : Int), some (str "comma")⟩, ?_, rfl⟩
    unfold collectFormatErrors
    dsimp only []
    rw [h1, h2]
    split <;> simp

/-- C4 (witness): both errors are present for the concrete input
`completely bogus text`. -/
theorem C4_missing_both_witness :
    (∃ e ∈ collectFormatErrors (str "completely bogus text"),
      e.field = some (str "parentheses")) ∧
    (∃ e ∈ collectFormatErrors (str "completely bogus text"),
      e.field = some (str "comma")) :=
  C4_missing_both (str "completely bogus text") (by decide) (by decide) (by decide)

/-- C5 (counterexample).  The claim asserts that a failed repair
reports the ORIGINAL validation errors together with the repair text.
On the code, the first exception is discarded (`except ...: pass`) and
the `CitationFixError` payload interpolates the errors of re-validating
the REPAIRED text: for `Foo v. Bar 12 U.S. 34 1999` the original
validation fails with the missing-parentheses and missing-comma errors,
but the reported error list is the single malformed-parenthetical error
of the repaired text `Foo v. Bar, 12 U.S. 34 (1999)`. -/
theorem C5_counterexample :
    validateFullCitation (str "Foo v. Bar 12 U.S. 34 1999") none none =
      .error (.validation
        [⟨str "Missing parentheses around court and year (…)", 0, 26,
          some (str "parentheses")⟩,
         ⟨str "Missing comma before the parenthetical containing court and year.", 0, 26,
          some (str "comma")⟩]) ∧
    autoFixCitation (str "Foo v. Bar 12 U.S. 34 1999") none none =
      .error (.inl (.stillInvalid
        [⟨str "Parenthetical must be of the form ‘(Court Year)’.", 23, 29,
          some (str "parenthetical_contents")⟩]
        (str "Foo v. Bar, 12 U.S. 34 (1999)"))) ∧
    ([⟨str "Parenthetical must be of the form ‘(Court Year)’.", 23, 29,
        some (str "parenthetical_contents")⟩] : List CitationError) ≠
      [⟨str "Missing parentheses around court and year (…)", 0, 26,
        some (str "parentheses")⟩,
       ⟨str "Missing comma before the parenthetical containing court and year.", 0, 26,
        some (str "comma")⟩] :=
  ⟨by rfl, by rfl, by decide⟩

/-- C5 (amended).  `auto_fix_citation` first validates the original and
returns it unchanged on success; on a structural validation failure it
applies exactly one mechanical reformat, fails immediately with the
no-change condition when the reformat leaves the text identical (as for
`completely bogus text`), and otherwise re-validates exactly once: the
final outcome is fully determined by that single re-validation, and a
second failure reports the re-validation errors of the repaired text
(labelled "Original errors" in the message) together with the attempted
repair text.  It never retries more than once. -/
theorem C5_amended :
    (∀ (cit : LC) (q p : Option LC) (r : CaseComps × Option DbRec × LC),
        validateFullCitation cit q p = .ok r → autoFixCitation cit q p = .ok cit) ∧
    (∀ (cit : LC) (q p : Option LC) (e : List CitationError),
        validateFullCitation cit q p = .error (.validation e) →
        fixCitationFormat cit = cit →
        autoFixCitation cit q p = .error (.inl (.noChange cit))) ∧
    (autoFixCitation (str "completely bogus text") none none =
      .error (.inl (.noChange (str "completely bogus text")))) ∧
    (∀ (cit : LC) (q p : Option LC) (e : List CitationError),
        validateFullCitation cit q p = .error (.validation e) →
        fixCitationFormat cit ≠ cit →
        autoFixCitation cit q p =
          (match validateFullCitation (fixCitationFormat cit) q p with
           | .ok _ => .ok (fixCitationFormat cit)
           | .error (.validation e2) =>
             .error (.inl (.stillInvalid e2 (fixCitationFormat cit)))
           | .error (.valueError m) => .error (.inr (.valueError m)))) := by
  refine ⟨?_, ?_, by rfl, ?_⟩
  · intro cit q p r h
    unfold autoFixCitation
    rw [h]
  · intro cit q p e h hfix
    unfold autoFixCitation
    rw [h, if_pos hfix]
  · intro cit q p e h hfix
    unfold autoFixCitation
    rw [h, if_neg hfix]

/-- C5 (witness): the amended theorem applied at concrete inputs — a
valid citation passes through unchanged, and the counterexample input
is repaired once and re-validated once. -/
theorem C5_amended_witness :
    autoFixCitation (str "Brown v. Board, 347 U.S. 483 (U.S. 1954)") none none =
      .ok (str "Brown v. Board, 347 U.S. 483 (U.S. 1954)") ∧
    autoFixCitation (str "Foo v. Bar 12 U.S. 34 1999") none none =
      (match validateFullCitation (fixCitationFormat (str "Foo v. Bar 12 U.S. 34 1999"))
          none none with
       | .ok _ => .ok (fixCitationFormat (str "Foo v. Bar 12 U.S. 34 1999"))
       | .error (.validation e2) =>
         .error (.inl (.stillInvalid e2 (fixCitationFormat (str "Foo v. Bar 12 U.S. 34 1999"))))
       | .error (.valueError m) => .error (.inr (.valueError m))) := by
  constructor
  · exact C5_amended.1 (str "Brown v. Board, 347 U.S. 483 (U.S. 1954)") none none
      (⟨str "Brown v. Board", str "347", str "U.S.", str "483", none, str "U.S.", str "1954"⟩,
        none, str "<i>Brown v. Board</i> 347 U.S. 483 (U.S. 1954)") (by rfl)
  · exact C5_amended.2.2.2 (str "Foo v. Bar 12 U.S. 34 1999") none none
      [⟨str "Missing parentheses around court and year (…)", 0, 26,
        some (str "parentheses")⟩,
       ⟨str "Missing comma before the parenthetical containing court and year.", 0, 26,
        some (str "comma")⟩] (by rfl) (by decide)

/-- Helper: every known federal court level produced by
`map_federal_court_level` has a nonempty allowed-reporter set in the
(spec-modelled) `COURT_REPORTER_MAPPING`. -/
lemma fedLevel_allowed (court lvl : LC) (h : mapFederalCourtLevel court = some lvl)
    (hu : lvl ≠ str "Unknown") :
    ∃ allowed, COURT_REPORTER_MAPPING.lookup lvl = some allowed ∧ allowed.isEmpty = false := by
  unfold mapFederalCourtLevel at h
  dsimp only [] at h
  split_ifs at h
  all_goals try (injection h with h'; subst h')
  all_goals first
    | exact ⟨_, rfl, rfl⟩
    | exact absurd rfl hu

/-- C6.  When the court string maps to a known federal court level,
semantic validation succeeds exactly when the reporter is in that
level's allowed-reporter set (concretely, court `Supreme Court` with
reporter `F.2d` fails); when the court maps to neither a known federal
level nor a state level, the record passes semantic validation by
default. -/
theorem C6_reporter_court :
    (∀ (court : LC) (reporter : Option LC) (lvl : LC),
        mapFederalCourtLevel court = some lvl → lvl ≠ str "Unknown" →
        (validateReporterForCourtR court reporter = .ok () ↔
          optMem reporter ((COURT_REPORTER_MAPPING.lookup lvl).getD []) = true)) ∧
    (∀ (court : LC) (reporter : Option LC),
        (mapFederalCourtLevel court = none ∨
          mapFederalCourtLevel court = some (str "Unknown")) →
        mapStateCourtLevelR (reporter.getD []) = none →
        validateReporterForCourtR court reporter = .ok ()) ∧
    validateReporterForCourtR (str "Supreme Court") (some (str "F.2d")) =
      .error (str "Reporter " ++ apos :: str "F.2d" ++ apos
        :: str " not valid for federal Supreme Court. Allowed: "
        ++ showListLC [str "U.S.", str "S. Ct.", str "L. Ed."]) := by
  refine ⟨?_, ?_, by rfl⟩
  · intro court reporter lvl h hu
    obtain ⟨allowed, hlk, hne⟩ := fedLevel_allowed court lvl h hu
    unfold validateReporterForCourtR
    dsimp only []
    rw [h]
    dsimp only []
    rw [if_pos hu, hlk]
    dsimp only [Option.getD]
    rw [hne]
    cases hm : optMem reporter allowed with
    | true => simp
    | false => simp
  · intro court reporter hfed hst
    unfold validateReporterForCourtR
    dsimp only []
    rcases hfed with hfed | hfed
    · rw [hfed]
      dsimp only []
      rw [hst]
    · rw [hfed]
      dsimp only []
      rw [if_neg (by decide), hst]

/-- C6 (witness): the federal branch at Supreme Court with the allowed
reporter `U.S.`, and the pass-by-default branch at the court string
`U.S.` (which maps to the Unknown federal level) with reporter `U.S.`
(which maps to no state level). -/
theorem C6_reporter_court_witness :
    (validateReporterForCourtR (str "Supreme Court") (some (str "U.S.")) = .ok () ↔
      optMem (some (str "U.S."))
        ((COURT_REPORTER_MAPPING.lookup (str "Supreme Court")).getD []) = true) ∧
    validateReporterForCourtR (str "U.S.") (some (str "U.S.")) = .ok () := by
  constructor
  · exact C6_reporter_court.1 (str "Supreme Court") (some (str "U.S."))
      (str "Supreme Court") (by rfl) (by decide)
  · exact C6_reporter_court.2.1 (str "U.S.") (some (str "U.S."))
      (Or.inr (by rfl)) (by rfl)



/-- C7.  `format_quote` counts words as whitespace-delimited tokens of
the raw quote before any quote-mark substitution; with 49 or fewer
words the quote is rendered inline in quotation marks, its first
character bracket-capitalized when lowercase, with the citation
appended on the same line; with 50 or more words every line is indented
by one space and the citation is placed on its own following line.
The boundary is checked concretely at 49 and 50 words. -/
theorem C7_format_quote :
    (∀ (quote cit : LC), (pySplitWS quote).length ≤ 49 →
        formatQuote quote cit =
          str "“" ++
            (match quoteSubstitutions quote with
             | c :: t => if pyIsLowerCh c then '[' :: upC c :: ']' :: t else c :: t
             | [] => []) ++ str "” " ++ cit) ∧
    (∀ (quote cit : LC), 50 ≤ (pySplitWS quote).length →
        formatQuote quote cit =
          joinNL ((pySplitLines (quoteSubstitutions quote)).map (fun l => ' ' :: l)) ++
            '\n' :: cit ∧
        ∀ line ∈ (pySplitLines (quoteSubstitutions quote)).map (fun l => ' ' :: l),
          line.head? = some ' ') ∧
    ((pySplitWS (mkWQuote 49)).length = 49 ∧
      (formatQuote (mkWQuote 49) (str "(C 2000)")).head? = some '“') ∧
    ((pySplitWS (mkWQuote 50)).length = 50 ∧
      (formatQuote (mkWQuote 50) (str "(C 2000)")).head? = some ' ' ∧
      containsSub (formatQuote (mkWQuote 50) (str "(C 2000)")) ('\n' :: str "(C 2000)") =
        true) := by
  refine ⟨?_, ?_, ⟨by decide, by decide⟩, ⟨by decide, by decide, by decide⟩⟩
  · intro quote cit hlen
    unfold formatQuote quoteSubstitutions
    rw [if_pos (by omega)]
  · intro quote cit hlen
    unfold formatQuote quoteSubstitutions
    rw [if_neg (by omega)]
    refine ⟨rfl, ?_⟩
    intro line hline
    simp only [List.mem_map] at hline
    obtain ⟨l, _, rfl⟩ := hline
    rfl

/-- C7 (witness): the inline and block clauses applied at the 49- and
50-word boundary quotes. -/
theorem C7_format_quote_witness :
    formatQuote (mkWQuote 49) (str "(C 2000)") =
      str "“" ++
        (match quoteSubstitutions (mkWQuote 49) with
         | c :: t => if pyIsLowerCh c then '[' :: upC c :: ']' :: t else c :: t
         | [] => []) ++ str "” " ++ str "(C 2000)" ∧
    formatQuote (mkWQuote 50) (str "(C 2000)") =
      joinNL ((pySplitLines (quoteSubstitutions (mkWQuote 50))).map (fun l => ' ' :: l)) ++
        '\n' :: str "(C 2000)" :=
  ⟨C7_format_quote.1 (mkWQuote 49) (str "(C 2000)") (by decide),
   (C7_format_quote.2.1 (mkWQuote 50) (str "(C 2000)") (by decide)).1⟩



/-- Helper for C8: the imperative accumulation equals the ordered
concatenation of per-check lists. -/
lemma collect_structure (a b c d g : List CitationError) (m : Bool) :
    (if (((a ++ b) ++ c) ++ d).isEmpty && m then (((a ++ b) ++ c) ++ d) ++ g
     else ((a ++ b) ++ c) ++ d) =
    (((a ++ b) ++ c) ++ d) ++ (if (((a ++ b) ++ c) ++ d).isEmpty && m then g else []) := by
  by_cases h : ((((a ++ b) ++ c) ++ d).isEmpty && m) = true
  · rw [if_pos h, if_pos h]
  · rw [if_neg h, if_neg h]
    simp

/-- C8.  The structural validator's error list is the ordered
concatenation of the per-check error lists, in check order
(parentheses, comma, volume/reporter/page, parenthetical shape, year,
court, final fallback), with no deduplication, and the generic
"invalid structure" error is emitted exactly when no earlier check
fired and the full case grammar still fails to match. -/
theorem C8_error_order (citation : LC) :
    collectFormatErrors citation = collectFormatErrorsSpec citation ∧
    (checkFallbackSpec citation ≠ [] ↔
      (checkParens citation = [] ∧ checkComma citation = [] ∧
        checkVRP citation = [] ∧ checkParenthetical citation = [] ∧
        citationMatch citation = none)) := by
  constructor
  · unfold collectFormatErrorsSpec checkFallbackSpec collectFormatErrors
    dsimp only []
    exact collect_structure _ _ _ _ _ _
  · unfold checkFallbackSpec
    by_cases h : ((checkParens citation ++ checkComma citation ++
        checkVRP citation ++ checkParenthetical citation).isEmpty &&
        (citationMatch citation).isNone) = true
    · rw [if_pos h]
      rcases Bool.and_eq_true_iff.mp h with ⟨h1, h2⟩
      have hnil := List.isEmpty_iff.mp h1
      rcases List.append_eq_nil.mp hnil with ⟨h4, hd⟩
      rcases List.append_eq_nil.mp h4 with ⟨h5, hc⟩
      rcases List.append_eq_nil.mp h5 with ⟨ha, hb⟩
      constructor
      · intro _
        exact ⟨ha, hb, hc, hd, Option.isNone_iff_eq_none.mp h2⟩
      · intro _
        simp
    · rw [if_neg h]
      constructor
      · intro hcontra; exact absurd rfl hcontra
      · intro ⟨ha, hb, hc, hd, hm⟩
        exfalso
        apply h
        rw [ha, hb, hc, hd, hm]
        rfl

/-- Helper: with an empty `b`, `b2j` is empty. -/
lemma b2jF_nil (c : Char) : b2jF [] c = [] := rfl

/-- Helper: with an empty `b` the main loop of `find_longest_match`
never updates the best match. -/
lemma flmIs_nil_b (a : LC) (blo bhi : Nat) :
    ∀ (is1 : List Nat) (j2 : List (Nat × Nat)) (best : Nat × Nat × Nat),
      flmIs a [] blo bhi is1 j2 best = best := by
  intro is1
  induction is1 with
  | nil => intro j2 best; rfl
  | cons i is ih =>
    intro j2 best
    unfold flmIs
    rw [b2jF_nil]
    exact ih [] best

/-- Helper: `find_longest_match` against an empty `b` returns the empty
match. -/
lemma findLongestMatch_nil_b (a : LC) (alo ahi : Nat) :
    findLongestMatch a [] alo ahi 0 0 = (alo, 0, 0) := by
  unfold findLongestMatch
  dsimp only []
  rw [flmIs_nil_b]
  have hlow : ∀ fuel junkVal, extLowF fuel a [] alo 0 junkVal (alo, 0, 0) = (alo, 0, 0) := by
    intro fuel junkVal
    cases fuel with
    | zero => rfl
    | succ n =>
      unfold extLowF
      have : (alo > alo && 0 > 0 && (isPopularB [] ([].getD (0 - 1) ' ') == junkVal)
          && (a.getD (alo - 1) ' ' == [].getD (0 - 1) ' ')) = false := by
        simp
      rw [this]
      rfl
  have hh : ∀ fuel junkVal bi, extHighF fuel a [] ahi 0 junkVal (bi, 0, 0) = (bi, 0, 0) := by
    intro fuel junkVal bi
    cases fuel with
    | zero => rfl
    | succ n =>
      unfold extHighF
      have : (bi + 0 < ahi && 0 + 0 < 0 && (isPopularB [] ([].getD (0 + 0) ' ') == junkVal)
          && (a.getD (bi + 0) ' ' == [].getD (0 + 0) ' ')) = false := by
        simp
      rw [this]
      rfl
  rw [hlow, hh, hlow, hh]

/-- Helper: `SequenceMatcher` finds no matches against an empty second
sequence. -/
lemma smMatches_nil_right (a : LC) : smMatches a [] = 0 := by
  unfold smMatches
  show matchesSumF (a.length + 0 + 1) a [] 0 a.length 0 0 = 0
  unfold matchesSumF
  rw [findLongestMatch_nil_b]
  rfl

/-- Helper: a nonempty provided quote compared against empty stored
text never passes `_check_quote` (its ratio is 0). -/
lemma checkQuote_nil_right (a : LC) (h : a ≠ []) : checkQuote a [] = false := by
  unfold checkQuote ratioGtTenth
  rw [smMatches_nil_right]
  have hne : ¬ (a.length + List.length ([] : LC) = 0) := by
    cases a with
    | nil => exact absurd rfl h
    | cons c t => simp
  rw [if_neg hne]
  simp

/-- C9 (counterexample).  The claim asserts that for a valid citation a
non-empty quote with no pincite always raises the quote-mismatch error.
The quote `" "` is non-empty, yet `_remove_signals` strips it to the
empty string, `SequenceMatcher("", "").ratio()` is 1.0 > 0.3, and the
validation succeeds with no error. -/
theorem C9_counterexample :
    (str " ").isEmpty = false ∧
    removeSignals (str " ") = [] ∧
    validateFullCitation (str "Alpha v. Beta, 10 U.S. 100 (U.S. 1800)")
        (some (str " ")) none =
      .ok (alphaComps, none, str "<i>Alpha v. Beta</i> 10 U.S. 100 (U.S. 1800)") :=
  ⟨by rfl, by rfl, by rfl⟩

/-- C9 (amended).  For every structurally and semantically valid
citation, a provided quote with no pincite raises the quote-mismatch
error whenever the quote still has content after signal- and
whitespace-stripping: the repository is only consulted when a pincite
is passed, so the stored text is empty and the similarity ratio of a
nonempty cleaned quote against it is 0. -/
theorem C9_amended (citation q : LC) (r : CaseComps × Option DbRec × LC)
    (hok : validateFullCitation citation none none = .ok r)
    (hq : q ≠ []) (hcl : removeSignals q ≠ []) :
    validateFullCitation citation (some q) none =
      .error (.valueError (str "Provided quote does not match source text")) := by
  unfold validateFullCitation at hok ⊢
  cases hpre : validatePre citation with
  | error e => rw [hpre] at hok; cases hok
  | ok pr =>
    obtain ⟨c2, comps⟩ := pr
    try dsimp only [] at hok ⊢
    try dsimp only []
    have hqb : (!q.isEmpty) = true := by
      cases q with
      | nil => exact absurd rfl hq
      | cons c t => rfl
    rw [hqb]
    try dsimp only []
    rw [checkQuote_nil_right (removeSignals q) hcl]
    rfl

/-- C9 (witness): the amended theorem applied at the Alpha citation
with the quote `hello world`. -/
theorem C9_amended_witness :
    validateFullCitation (str "Alpha v. Beta, 10 U.S. 100 (U.S. 1800)")
        (some (str "hello world")) none =
      .error (.valueError (str "Provided quote does not match source text")) :=
  C9_amended (str "Alpha v. Beta, 10 U.S. 100 (U.S. 1800)") (str "hello world")
    (alphaComps, none, str "<i>Alpha v. Beta</i> 10 U.S. 100 (U.S. 1800)")
    (by rfl) (by decide) (by decide)

/-- C10.  Whenever `format_short_citation` fails with the unsupported
short-form-kind error, the resolver state `last_short_key` is left
unchanged: the error is raised before the assignment on the
explicit-short-form path. -/
theorem C10_unsupported_keeps_state (last : Option ShortKey) (full : PyDict) (kind : LC)
    (h : (formatShortCitation last full kind).1 =
      .error (str "Unsupported short form kind")) :
    (formatShortCitation last full kind).2 = last := by
  unfold formatShortCitation at h ⊢
  dsimp only [] at h ⊢
  by_cases hk : last = some (buildShortKey full kind)
  · rw [if_pos hk]
  · rw [if_neg hk] at h ⊢
    revert h
    cases hexp : explicitShort full kind with
    | error e => intro _; rfl
    | ok s => intro h; cases h

/-- C10 (witness): the theorem applied at an unsupported kind from a
fresh state. -/
theorem C10_unsupported_keeps_state_witness :
    (formatShortCitation none statuteDict (str "frob")).1 =
      .error (str "Unsupported short form kind") ∧
    (formatShortCitation none statuteDict (str "frob")).2 = none :=
  ⟨by rfl, C10_unsupported_keeps_state none statuteDict (str "frob") (by rfl)⟩
